import Mathlib

/-!
# kothapp: two-party TCP chat (`src/main.c`)

A shallow embedding of `main.c`.  Every call into libc or the kernel is
recorded as an `Event`; the results of those calls are supplied by an
explicit environment, so each C function becomes a pure function from the
environment to the trace of calls it makes (and its return value).

* `receive_messages` : the receiving thread (lines 18-39)
* `run_server`, `run_client` : connection establishment (lines 51-144)
* `main` : argument handling, thread start, send loop, cleanup (lines 146-218)

The two threads are embedded separately; interleavings between them are not
part of the model.
-/

set_option autoImplicit false

namespace Kothapp

/-! ## Definitions -/

/-- One `char`. -/
abbrev Byte := UInt8

/-- The macro `BUFFER_SIZE` (line 11). -/
def BUFFER_SIZE : Nat := 1024

/-- The macro `MAX_MESSAGE_SIZE` (line 12). -/
def MAX_MESSAGE_SIZE : Nat := 512

/-- The bytes of an ASCII string literal. -/
def str (s : String) : List Byte := s.toList.map (fun c => c.toNat.toUInt8)

/-- The calls a thread makes, with the arguments that matter and the result
the environment gave. -/
inductive Event where
  | socket (ret : Int)
  | setsockopt (fd : Int)
  | bind (fd : Int) (port : Nat) (ret : Int)
  | listen (fd : Int) (backlog : Nat) (ret : Int)
  | accept (fd : Int) (ret : Int)
  | inet_pton (src : String) (ret : Int)
  | connect (fd : Int) (ip : String) (port : Nat) (ret : Int)
  | signal (signum : Nat)
  | pthread_create (sock : Int) (ret : Int)
  | fgets (size : Nat) (line : Option (List Byte))
  | send (fd : Int) (payload : List Byte) (ret : Int)
  | recv (fd : Int) (len : Nat) (ret : Int) (data : List Byte)
  | stdout (text : List Byte)
  | fflush
  | perror (msg : String)
  | close (fd : Int)
  | exit (status : Int)
  deriving DecidableEq, Repr

/-- The C string held in a buffer: the bytes before the first NUL.  This is
what `strlen` measures and what `printf("%s")` prints. -/
def cstr (buf : List Byte) : List Byte := buf.takeWhile (fun b => b != 0)

/-- The value of `strlen(buf)`. -/
def strlen (buf : List Byte) : Nat := (cstr buf).length

/-- The buffer after `memset(buffer, 0, n)`, for a buffer of `n` bytes. -/
def memset0 (n : Nat) : List Byte := List.replicate n 0

/-- Overwrite the front of `buf` with `bs` (what `recv` does with the bytes it
delivers); the buffer keeps its size. -/
def overwrite (buf bs : List Byte) : List Byte := bs ++ buf.drop bs.length

/-- What the peer's side of the connection offers next. -/
inductive Arrival where
  | data (bs : List Byte)
  | fin
  | err
  deriving DecidableEq, Repr

/-- Model of `recv(sock, buf, len, 0)` on a stream socket: `none` when nothing
will ever arrive (the call blocks for good); otherwise the return value, the
bytes delivered into the buffer, and what is left of the stream.  At most
`len` bytes are delivered; the remainder of a larger arrival stays queued. -/
def recv (len : Nat) : List Arrival → Option (Int × List Byte × List Arrival)
  | [] => none
  | Arrival.err :: rest => some (-1, [], rest)
  | Arrival.fin :: rest => some (0, [], rest)
  | Arrival.data bs :: rest =>
    if bs.length ≤ len then some ((bs.length : Int), bs, rest)
    else some ((len : Int), bs.take len, Arrival.data (bs.drop len) :: rest)

/-- How a run of the receiving thread ends. -/
inductive RelayEnd where
  | exited (status : Int)
  | waiting
  | unfinished
  deriving DecidableEq, Repr

/-- The notice printed at line 28. -/
def lostNotice : List Byte := str "\n[Connection lost or peer disconnected]\n"

/-- The prefix of the format at line 34. -/
def peerTag : List Byte := str "Peer: "

/-- The thread function `receive_messages` (lines 18-39): the `while (1)` loop,
one iteration per unit of fuel.  `waiting` means the thread is blocked in
`recv` with nothing more to come; `unfinished` means the fuel ran out. -/
def receive_messages (sock : Int) : Nat → List Arrival → List Event × RelayEnd
  | 0, _ => ([], RelayEnd.unfinished)
  | fuel + 1, stream =>
    let buffer := memset0 BUFFER_SIZE
    match recv (BUFFER_SIZE - 1) stream with
    | none => ([], RelayEnd.waiting)
    | some (bytes_received, bs, stream') =>
      let buffer := overwrite buffer bs
      if bytes_received ≤ 0 then
        ([Event.recv sock (BUFFER_SIZE - 1) bytes_received bs,
          Event.stdout lostNotice, Event.close sock, Event.exit 0],
         RelayEnd.exited 0)
      else
        let r := receive_messages sock fuel stream'
        (Event.recv sock (BUFFER_SIZE - 1) bytes_received bs
          :: Event.stdout (peerTag ++ cstr buffer)
          :: Event.fflush :: r.1, r.2)

/-- Fuel that always suffices for `receive_messages`: every iteration either
removes an arrival or shortens the first one. -/
def streamFuel : List Arrival → Nat
  | [] => 1
  | Arrival.data bs :: rest => bs.length + 1 + streamFuel rest
  | _ :: rest => 1 + streamFuel rest

/-- Standard input: the bytes still to be read, and whether the read that
runs past the last byte reports an error instead of end-of-file. -/
structure Stdin where
  data : List Byte
  fails : Bool
  deriving DecidableEq, Repr

/-- The characters `fgets` takes from the stream when it may read at most `k`
of them: it stops after a newline (which it keeps), after `k` characters, or
at the end of the data.  The result is the characters read, the rest of the
stream, and whether the end of the data was hit. -/
def readLine : Nat → List Byte → List Byte × List Byte × Bool
  | 0, inp => ([], inp, false)
  | _ + 1, [] => ([], [], true)
  | k + 1, c :: cs =>
    if c = 10 then ([c], cs, false)
    else
      let r := readLine k cs
      (c :: r.1, r.2.1, r.2.2)

/-- Write `line` followed by the terminating NUL at the front of the array
`s`, as `fgets` does. -/
def store (s line : List Byte) : List Byte := line ++ 0 :: s.drop (line.length + 1)

/-- Model of `fgets(s, n, stdin)`: at most `n - 1` characters are read.  The
result is `none` (a null pointer) when the end of the data is hit and either
nothing was read or the stream reports a read error; otherwise the
characters read, which are stored NUL-terminated in `s`. -/
def fgets (s : List Byte) (n : Nat) (inp : Stdin) : Option (List Byte) × List Byte × Stdin :=
  let r := readLine (n - 1) inp.data
  if r.2.2 && (inp.fails || r.1.isEmpty) then (none, s, { inp with data := r.2.1 })
  else (some r.1, store s r.1, { inp with data := r.2.1 })

/-- The notice printed at line 210. -/
def sendFailNotice : List Byte := str "Failed to send message or connection lost\n"

/-- The `while (1)` loop of `main` (lines 201-213), one iteration per unit of
fuel.  `sendRet k payload` is what the `k`-th call of `send` returns.  The
Boolean is `true` when the loop was left through one of its `break`s and
`false` when the fuel ran out first. -/
def send_loop (sock : Int) (sendRet : Nat → List Byte → Int) :
    Nat → Nat → List Byte → Stdin → List Event × Bool
  | 0, _, _, _ => ([], false)
  | fuel + 1, k, message, inp =>
    match fgets message MAX_MESSAGE_SIZE inp with
    | (none, _, _) => ([Event.fgets MAX_MESSAGE_SIZE none], true)
    | (some line, message', inp') =>
      let payload := message'.take (strlen message')
      let bytes_sent := sendRet k payload
      if bytes_sent ≤ 0 then
        ([Event.fgets MAX_MESSAGE_SIZE (some line), Event.send sock payload bytes_sent,
          Event.stdout sendFailNotice], true)
      else
        let r := send_loop sock sendRet fuel (k + 1) message' inp'
        (Event.fgets MAX_MESSAGE_SIZE (some line) :: Event.send sock payload bytes_sent :: r.1,
         r.2)

/-- The function `isspace` in the C locale. -/
def isspace (c : Char) : Bool :=
  c = ' ' || c = '\t' || c = '\n' || c = '\x0b' || c = '\x0c' || c = '\r'

/-- The value of a run of decimal digits. -/
def digitsValue (ds : List Char) : Nat :=
  ds.foldl (fun acc c => 10 * acc + (c.toNat - 48)) 0

/-- The optional sign in front of a number: whether it is a minus, and the
characters after it. -/
def parseSign : List Char → Bool × List Char
  | '-' :: t => (true, t)
  | '+' :: t => (false, t)
  | cs => (false, cs)

/-- Model of `atoi`, as glibc computes it (`(int) strtol(s, NULL, 10)`):
leading white space is skipped, an optional sign is read, then the longest
run of decimal digits; the value saturates to the range of `long` and is then
truncated to 32 bits.  A string with no digits at that point gives 0. -/
def atoi (s : String) : Int :=
  let cs := s.toList.dropWhile isspace
  let signed := parseSign cs
  let v : Int := (digitsValue (signed.2.takeWhile Char.isDigit) : Int)
  let v := if signed.1 then -v else v
  let v := max (-(2 : Int) ^ 63) (min v ((2 : Int) ^ 63 - 1))
  (v + 2 ^ 31) % 2 ^ 32 - 2 ^ 31

/-- The port number that `htons(port)` puts into `sin_port`: the `int` is
converted to `uint16_t`. -/
def htons (port : Int) : Nat := (port % 65536).toNat

/-- What the environment answers to the calls made while the connection is
set up and used. -/
structure Env where
  /-- result of `socket` -/
  socketRet : Int
  /-- result of `bind` -/
  bindRet : Int
  /-- result of `listen` -/
  listenRet : Int
  /-- result of `accept` -/
  acceptRet : Int
  /-- the string `inet_ntoa(client_addr.sin_addr)` yields after `accept` -/
  peerAddr : String
  /-- the value of `ntohs(client_addr.sin_port)` after `accept` -/
  peerPort : Nat
  /-- result of `inet_pton(AF_INET, src, dst)` as a function of `src` -/
  inet_pton : String → Int
  /-- result of `connect` -/
  connectRet : Int
  /-- result of `pthread_create` -/
  pthreadRet : Int
  /-- local input -/
  stdin : Stdin
  /-- the contents of the array `message` before it is first written -/
  message : List Byte
  /-- result of the `k`-th `send`, given its payload -/
  sendRet : Nat → List Byte → Int

/-- The function `run_server` (lines 51-105): the calls made and the value returned. -/
def run_server (env : Env) (port : Int) : List Event × Int :=
  let server_sock := env.socketRet
  if server_sock < 0 then
    ([Event.socket server_sock, Event.perror "Socket creation failed"], -1)
  else if env.bindRet < 0 then
    ([Event.socket server_sock, Event.setsockopt server_sock,
      Event.bind server_sock (htons port) env.bindRet,
      Event.perror "Bind failed", Event.close server_sock], -1)
  else if env.listenRet < 0 then
    ([Event.socket server_sock, Event.setsockopt server_sock,
      Event.bind server_sock (htons port) env.bindRet,
      Event.listen server_sock 1 env.listenRet,
      Event.perror "Listen failed", Event.close server_sock], -1)
  else
    let client_sock := env.acceptRet
    if client_sock < 0 then
      ([Event.socket server_sock, Event.setsockopt server_sock,
        Event.bind server_sock (htons port) env.bindRet,
        Event.listen server_sock 1 env.listenRet,
        Event.stdout (str ("Server listening on port " ++ toString port ++ "...\n")),
        Event.stdout (str "Waiting for client to connect...\n"),
        Event.accept server_sock client_sock,
        Event.perror "Accept failed", Event.close server_sock], -1)
    else
      ([Event.socket server_sock, Event.setsockopt server_sock,
        Event.bind server_sock (htons port) env.bindRet,
        Event.listen server_sock 1 env.listenRet,
        Event.stdout (str ("Server listening on port " ++ toString port ++ "...\n")),
        Event.stdout (str "Waiting for client to connect...\n"),
        Event.accept server_sock client_sock,
        Event.stdout (str ("Client connected from " ++ env.peerAddr ++ ":"
          ++ toString env.peerPort ++ "\n")),
        Event.stdout (str "Chat started! Type messages and press Enter.\n"),
        Event.stdout (str "Press Ctrl+C to exit.\n\n"),
        Event.close server_sock], client_sock)

/-- The function `run_client` (lines 108-144): the calls made and the value returned. -/
def run_client (env : Env) (server_ip : String) (port : Int) : List Event × Int :=
  let client_sock := env.socketRet
  if client_sock < 0 then
    ([Event.socket client_sock, Event.perror "Socket creation failed"], -1)
  else if env.inet_pton server_ip ≤ 0 then
    ([Event.socket client_sock, Event.inet_pton server_ip (env.inet_pton server_ip),
      Event.stdout (str "Invalid server IP address\n"), Event.close client_sock], -1)
  else if env.connectRet < 0 then
    ([Event.socket client_sock, Event.inet_pton server_ip (env.inet_pton server_ip),
      Event.stdout (str ("Connecting to " ++ server_ip ++ ":" ++ toString port ++ "...\n")),
      Event.connect client_sock server_ip (htons port) env.connectRet,
      Event.perror "Connection failed", Event.close client_sock], -1)
  else
    ([Event.socket client_sock, Event.inet_pton server_ip (env.inet_pton server_ip),
      Event.stdout (str ("Connecting to " ++ server_ip ++ ":" ++ toString port ++ "...\n")),
      Event.connect client_sock server_ip (htons port) env.connectRet,
      Event.stdout (str "Connected to server!\n"),
      Event.stdout (str "Chat started! Type messages and press Enter.\n"),
      Event.stdout (str "Press Ctrl+C to exit.\n\n")], client_sock)

/-- A run of the main thread: the calls it made, and the status it returned
(`none` when it did not return). -/
structure Run where
  trace : List Event
  status : Option Int
  deriving DecidableEq, Repr

/-- Lines 184-217 of `main`: what happens once `run_server` or `run_client`
has returned `sock`, after the calls in `pre`. -/
def main_chat (env : Env) (pre : List Event) (sock : Int) : Run :=
  if sock < 0 then
    { trace := pre ++ [Event.stdout (str "Failed to establish connection\n")], status := some 1 }
  else if env.pthreadRet ≠ 0 then
    { trace := pre ++ [Event.pthread_create sock env.pthreadRet,
        Event.perror "Failed to create receive thread", Event.close sock],
      status := some 1 }
  else
    let loop := send_loop sock env.sendRet (env.stdin.data.length + 1) 0 env.message env.stdin
    if loop.2 then
      { trace := pre ++ Event.pthread_create sock env.pthreadRet :: loop.1 ++ [Event.close sock],
        status := some 0 }
    else
      { trace := pre ++ Event.pthread_create sock env.pthreadRet :: loop.1, status := none }

/-- The signal number `SIGINT`. -/
def SIGINT : Nat := 2

/-- The signal number `SIGTERM`. -/
def SIGTERM : Nat := 15

/-- The function `main` (lines 146-218).  `argv` holds the `argc` arguments. -/
def main (argv : List String) (env : Env) : Run :=
  let argc := argv.length
  let arg := fun i => argv.getD i "(null)"
  let sig := [Event.signal SIGINT, Event.signal SIGTERM]
  if argc < 3 then
    { trace := sig ++ [Event.stdout (str "Usage:\n"),
        Event.stdout (str ("  Server mode: " ++ arg 0 ++ " server <port>\n")),
        Event.stdout (str ("  Client mode: " ++ arg 0 ++ " client <server_ip> <port>\n"))],
      status := some 1 }
  else if arg 1 = "server" then
    if argc ≠ 3 then
      { trace := sig ++ [Event.stdout (str ("Server usage: " ++ arg 0 ++ " server <port>\n"))],
        status := some 1 }
    else
      let port := atoi (arg 2)
      let r := run_server env port
      main_chat env (sig ++ r.1) r.2
  else if arg 1 = "client" then
    if argc ≠ 4 then
      { trace := sig ++ [Event.stdout (str ("Client usage: " ++ arg 0
          ++ " client <server_ip> <port>\n"))],
        status := some 1 }
    else
      let server_ip := arg 2
      let port := atoi (arg 3)
      let r := run_client env server_ip port
      main_chat env (sig ++ r.1) r.2
  else
    { trace := sig ++ [Event.stdout (str "Invalid mode. Use 'server' or 'client'\n")],
      status := some 1 }

/-- The payloads handed to `send`, in order. -/
def sentPayloads : List Event → List (List Byte)
  | [] => []
  | Event.send _ payload _ :: t => payload :: sentPayloads t
  | _ :: t => sentPayloads t

/-- The lines `fgets` returned, in order. -/
def linesRead : List Event → List (List Byte)
  | [] => []
  | Event.fgets _ (some line) :: t => line :: linesRead t
  | _ :: t => linesRead t

/-- A `send` that always reports the whole payload written. -/
def wholeSend : Nat → List Byte → Int := fun _ payload => (payload.length : Int)

/-- An environment in which every call succeeds: descriptors 3 and 4, and
`send` reports the whole payload written. -/
def okEnv (input : List Byte) : Env :=
  { socketRet := 3, bindRet := 0, listenRet := 0, acceptRet := 4,
    peerAddr := "127.0.0.1", peerPort := 40000,
    inet_pton := fun _ => 1, connectRet := 0, pthreadRet := 0,
    stdin := { data := input, fails := false },
    message := List.replicate 512 0,
    sendRet := wholeSend }

/-- The texts written to standard output, in order. -/
def displayed : List Event → List (List Byte)
  | [] => []
  | Event.stdout text :: t => text :: displayed t
  | _ :: t => displayed t

/-- The three calls of one iteration of `receive_messages` that received the
chunk `c` and printed `shown`. -/
def chunkEvents (sock : Int) (c shown : List Byte) : List Event :=
  [Event.recv sock (BUFFER_SIZE - 1) (c.length : Int) c,
   Event.stdout (peerTag ++ shown), Event.fflush]

/-- The calls of the last iteration of `receive_messages`, where `recv`
returned `ret`. -/
def stopEvents (sock : Int) (ret : Int) : List Event :=
  [Event.recv sock (BUFFER_SIZE - 1) ret [], Event.stdout lostNotice,
   Event.close sock, Event.exit 0]

/-- The value `recv` returns for an arrival that ends the stream. -/
def stopRet : Arrival → Int
  | Arrival.err => -1
  | _ => 0

/-- The calls of the iterations of the send loop that read the pieces
`chunks` one after the other, the first `send` being call number `k`. -/
def sendEvents (sock : Int) (sendRet : Nat → List Byte → Int) :
    Nat → List (List Byte) → List Event
  | _, [] => []
  | k, c :: cs =>
    Event.fgets 512 (some c) :: Event.send sock c (sendRet k c) :: sendEvents sock sendRet (k + 1) cs

/-- The calls the send loop can make. -/
def isLoopEvent (sock : Int) : Event → Prop
  | Event.fgets size _ => size = 512
  | Event.send fd _ _ => fd = sock
  | Event.stdout text => text = sendFailNotice
  | _ => False

/-- A `send` that always fails. -/
def failSend : Nat → List Byte → Int := fun _ _ => -1

/-- A line of 601 bytes whose second byte is NUL. -/
def nulLine : List Byte := ([97, 0] ++ List.replicate 509 98) ++ (List.replicate 89 98 ++ [10])

/-- A line of 601 bytes without NUL. -/
def longLine : List Byte := List.replicate 511 98 ++ (List.replicate 89 98 ++ [10])

/-- Calls that belong to the relays: starting the receiving thread, reading
local input, sending and receiving. -/
def Event.isRelay : Event → Bool
  | Event.pthread_create _ _ => true
  | Event.fgets _ _ => true
  | Event.send _ _ _ => true
  | Event.recv _ _ _ _ => true
  | _ => false

/-- Calls of `connect`. -/
def Event.isConnect : Event → Bool
  | Event.connect _ _ _ _ => true
  | _ => false

/-- Calls of `accept`. -/
def Event.isAccept : Event → Bool
  | Event.accept _ _ => true
  | _ => false

/-- The descriptors closed, in order. -/
def closedFds : List Event → List Int
  | [] => []
  | Event.close fd :: t => fd :: closedFds t
  | _ :: t => closedFds t

/-- The descriptors of the sockets created, by `socket` or by `accept`. -/
def createdFds : List Event → List Int
  | [] => []
  | Event.socket ret :: t => if 0 ≤ ret then ret :: createdFds t else createdFds t
  | Event.accept _ ret :: t => if 0 ≤ ret then ret :: createdFds t else createdFds t
  | _ :: t => createdFds t

/-- The parts of a string between its dots. -/
def splitDots : List Char → List (List Char)
  | [] => [[]]
  | c :: cs =>
    if c = '.' then [] :: splitDots cs
    else
      match splitDots cs with
      | [] => [[c]]
      | part :: parts => (c :: part) :: parts

/-- One `ddd` of a dotted address: one to three decimal digits, value at
most 255. -/
def isOctet (part : List Char) : Bool :=
  decide (1 ≤ part.length) && decide (part.length ≤ 3) && part.all Char.isDigit
    && decide (digitsValue part ≤ 255)

/-- A well-formed numeric dotted IPv4 address, `ddd.ddd.ddd.ddd`, as POSIX
describes the input `inet_pton(AF_INET, ...)` accepts. -/
def dottedQuad (s : String) : Bool :=
  decide ((splitDots s.toList).length = 4) && (splitDots s.toList).all isOctet

/-- An `inet_pton` that accepts exactly the well-formed dotted addresses. -/
def posixPton (s : String) : Int := if dottedQuad s then 1 else 0

/-- The number of calls of `accept`. -/
def acceptCalls (tr : List Event) : Nat := (tr.filter Event.isAccept).length

/-- A port argument that is a plain decimal number. -/
def isNumeric (s : String) : Bool := !s.toList.isEmpty && s.toList.all Char.isDigit

/-- An environment in which `bind` fails (the port is in use). -/
def bindFailEnv : Env := { okEnv [104, 105, 10] with bindRet := -1 }

/-- An environment in which `connect` fails (connection refused). -/
def refusedEnv : Env := { okEnv [104, 105, 10] with connectRet := -1 }

/-- An environment whose `inet_pton` accepts exactly the well-formed dotted
addresses, and in which `socket` fails. -/
def noSocketEnv : Env := { okEnv [] with socketRet := -1, inet_pton := posixPton }

/-- An environment whose `inet_pton` accepts exactly the well-formed dotted
addresses, and in which every other call succeeds. -/
def posixEnv : Env := { okEnv [] with inet_pton := posixPton }

/-! ## Lemmas and claims -/

theorem cstr_append_nul (l t : List Byte) : cstr (l ++ 0 :: t) = cstr l := by
  induction l with
  | nil => simp [cstr]
  | cons a l ih =>
    unfold cstr at ih ⊢
    by_cases h : a = 0
    · simp [h]
    · simp [List.takeWhile_cons, h, ih]

theorem cstr_of_no_nul (l : List Byte) (h : ∀ b ∈ l, b ≠ 0) : cstr l = l := by
  unfold cstr
  rw [List.takeWhile_eq_self_iff]
  intro b hb
  simpa using h b hb

theorem cstr_split (c : List Byte) :
    ∃ rest : List Byte, c = cstr c ++ rest ∧
      (∀ b ∈ cstr c, b ≠ 0) ∧ (rest = [] ∨ ∃ t, rest = 0 :: t) := by
  induction c with
  | nil => exact ⟨[], rfl, by simp [cstr], Or.inl rfl⟩
  | cons a c ih =>
    by_cases ha : a = 0
    · subst ha
      exact ⟨0 :: c, by simp [cstr], by simp [cstr], Or.inr ⟨c, rfl⟩⟩
    · obtain ⟨rest, h1, h2, h3⟩ := ih
      have hc : cstr (a :: c) = a :: cstr c := by
        simp [cstr, List.takeWhile_cons, ha]
      refine ⟨rest, ?_, ?_, h3⟩
      · rw [hc, List.cons_append, ← h1]
      · intro b hb
        rw [hc] at hb
        rcases List.mem_cons.mp hb with h | h
        · rw [h]
          exact ha
        · exact h2 b h

theorem cstr_overwrite (c : List Byte) (h : c.length ≤ BUFFER_SIZE - 1) :
    cstr (overwrite (memset0 BUFFER_SIZE) c) = cstr c := by
  unfold overwrite memset0
  have h1 : BUFFER_SIZE - c.length = (BUFFER_SIZE - 1 - c.length) + 1 := by
    simp only [BUFFER_SIZE] at h ⊢
    omega
  rw [List.drop_replicate, h1, List.replicate_succ]
  exact cstr_append_nul c _

theorem receive_messages_chunk (sock : Int) (fuel : Nat) (c : List Byte) (rest : List Arrival)
    (hpos : 0 < c.length) (hle : c.length ≤ BUFFER_SIZE - 1) :
    receive_messages sock (fuel + 1) (Arrival.data c :: rest) =
      (chunkEvents sock c (cstr c) ++ (receive_messages sock fuel rest).1,
       (receive_messages sock fuel rest).2) := by
  have hc := cstr_overwrite c hle
  have hn : ¬ ((c.length : Int) ≤ 0) := by omega
  simp only [receive_messages, recv, hle, if_true, hn, if_false, hc, chunkEvents]
  rfl

theorem receive_messages_split (sock : Int) (fuel : Nat) (bs : List Byte) (rest : List Arrival)
    (hbig : BUFFER_SIZE - 1 < bs.length) :
    receive_messages sock (fuel + 1) (Arrival.data bs :: rest) =
      (chunkEvents sock (bs.take (BUFFER_SIZE - 1)) (cstr (bs.take (BUFFER_SIZE - 1)))
        ++ (receive_messages sock fuel (Arrival.data (bs.drop (BUFFER_SIZE - 1)) :: rest)).1,
       (receive_messages sock fuel (Arrival.data (bs.drop (BUFFER_SIZE - 1)) :: rest)).2) := by
  have hlen : (bs.take (BUFFER_SIZE - 1)).length = BUFFER_SIZE - 1 := by
    rw [List.length_take]
    omega
  have hc := cstr_overwrite (bs.take (BUFFER_SIZE - 1)) (le_of_eq hlen)
  have hb : ¬ (bs.length ≤ BUFFER_SIZE - 1) := by omega
  have hn : ¬ (((BUFFER_SIZE - 1 : Nat) : Int) ≤ 0) := by simp [BUFFER_SIZE]
  simp only [receive_messages, recv, hb, if_false, hn, hc, chunkEvents, hlen]
  rfl

theorem receive_messages_chunks (sock : Int) (fuel : Nat) (chunks : List (List Byte))
    (rest : List Arrival)
    (h : ∀ c ∈ chunks, 0 < c.length ∧ c.length ≤ BUFFER_SIZE - 1) :
    receive_messages sock (fuel + chunks.length) (chunks.map Arrival.data ++ rest) =
      (chunks.flatMap (fun c => chunkEvents sock c (cstr c))
        ++ (receive_messages sock fuel rest).1,
       (receive_messages sock fuel rest).2) := by
  induction chunks with
  | nil => simp
  | cons c cs ih =>
    have hc := h c (List.mem_cons_self c cs)
    have hcs : ∀ d ∈ cs, 0 < d.length ∧ d.length ≤ BUFFER_SIZE - 1 :=
      fun d hd => h d (List.mem_cons_of_mem c hd)
    have e : fuel + (c :: cs).length = (fuel + cs.length) + 1 := by simp; omega
    rw [e, List.map_cons, List.cons_append, receive_messages_chunk sock _ c _ hc.1 hc.2, ih hcs]
    simp [List.flatMap_cons, List.append_assoc]

theorem receive_messages_stop (sock : Int) (fuel : Nat) (stop : Arrival) (post : List Arrival)
    (hstop : stop = Arrival.fin ∨ stop = Arrival.err ∨ stop = Arrival.data []) :
    receive_messages sock (fuel + 1) (stop :: post) =
      (stopEvents sock (stopRet stop), RelayEnd.exited 0) := by
  rcases hstop with h | h | h <;> subst h <;>
    simp [receive_messages, recv, stopEvents, stopRet]

theorem receive_messages_idle (sock : Int) (fuel : Nat) :
    receive_messages sock (fuel + 1) [] = ([], RelayEnd.waiting) := by
  simp [receive_messages, recv]

theorem recv_request_bound (sock : Int) (fuel : Nat) (stream : List Arrival) :
    ∀ e ∈ (receive_messages sock fuel stream).1, ∀ (fd : Int) (len : Nat) (ret : Int)
      (d : List Byte), e = Event.recv fd len ret d →
        len = BUFFER_SIZE - 1 ∧ d.length ≤ BUFFER_SIZE - 1 ∧ ret ≤ (BUFFER_SIZE - 1 : Nat) := by
  induction fuel generalizing stream with
  | zero => simp [receive_messages]
  | succ n ih =>
    intro e he fd len ret d hd
    subst hd
    cases stream with
    | nil => simp [receive_messages, recv] at he
    | cons a rest =>
      cases a with
      | err => simp [receive_messages, recv] at he; simp [he, BUFFER_SIZE]
      | fin => simp [receive_messages, recv] at he; simp [he, BUFFER_SIZE]
      | data bs =>
        by_cases hb : bs.length ≤ BUFFER_SIZE - 1
        · by_cases h0 : (bs.length : Int) ≤ 0
          · simp [receive_messages, recv, hb, h0] at he
            obtain ⟨-, h2, h3, h4⟩ := he
            subst h2 h3 h4
            refine ⟨rfl, hb, ?_⟩
            exact_mod_cast hb
          · simp only [receive_messages, recv, hb, if_true, h0, if_false,
              List.mem_cons] at he
            rcases he with he | he | he | he
            · injection he with _ h2 h3 h4
              subst h2 h3 h4
              refine ⟨rfl, hb, ?_⟩
              exact_mod_cast hb
            · cases he
            · cases he
            · exact ih rest _ he fd len ret d rfl
        · have h0 : ¬ (((BUFFER_SIZE - 1 : Nat) : Int) ≤ 0) := by simp [BUFFER_SIZE]
          simp only [receive_messages, recv, hb, if_false, h0, List.mem_cons] at he
          rcases he with he | he | he | he
          · injection he with _ h2 h3 h4
            subst h2 h3 h4
            refine ⟨rfl, ?_, le_refl _⟩
            simp [List.length_take]
          · cases he
          · cases he
          · exact ih _ _ he fd len ret d rfl

theorem displayed_chunks (sock : Int) (chunks : List (List Byte)) :
    displayed (chunks.flatMap (fun c =>
        [Event.recv sock 1023 (c.length : Int) c,
         Event.stdout (peerTag ++ c), Event.fflush]))
      = chunks.map (fun c => peerTag ++ c) := by
  induction chunks with
  | nil => rfl
  | cons c cs ih =>
    rw [List.flatMap_cons, List.map_cons, ← ih]
    rfl

theorem sentPayloads_sendEvents (sock : Int) (sendRet : Nat → List Byte → Int)
    (chunks : List (List Byte)) :
    ∀ k : Nat, sentPayloads (sendEvents sock sendRet k chunks) = chunks := by
  induction chunks with
  | nil => intro k; rfl
  | cons c cs ih =>
    intro k
    simp only [sendEvents, sentPayloads, ih (k + 1)]

theorem readLine_line (k : Nat) (body rest : List Byte) (hnl : ∀ b ∈ body, b ≠ 10)
    (hlen : body.length < k) :
    readLine k (body ++ 10 :: rest) = (body ++ [10], rest, false) := by
  induction body generalizing k with
  | nil =>
    obtain ⟨m, rfl⟩ : ∃ m, k = m + 1 := ⟨k - 1, by simp at hlen; omega⟩
    simp [readLine]
  | cons a body ih =>
    obtain ⟨m, rfl⟩ : ∃ m, k = m + 1 := ⟨k - 1, by simp at hlen; omega⟩
    have ha : a ≠ 10 := hnl a (List.mem_cons_self a body)
    have hb : ∀ b ∈ body, b ≠ 10 := fun b hb => hnl b (List.mem_cons_of_mem a hb)
    have hl : body.length < m := by simp at hlen; omega
    simp [readLine, ha, ih m hb hl]

theorem readLine_full (pre rest : List Byte) (hnl : ∀ b ∈ pre, b ≠ 10) :
    readLine pre.length (pre ++ rest) = (pre, rest, false) := by
  induction pre with
  | nil => simp [readLine]
  | cons a pre ih =>
    have ha : a ≠ 10 := hnl a (List.mem_cons_self a pre)
    have hb : ∀ b ∈ pre, b ≠ 10 := fun b hb => hnl b (List.mem_cons_of_mem a hb)
    simp [readLine, ha, ih hb]

theorem fgets_line (s body rest : List Byte) (fails : Bool) (hnl : ∀ b ∈ body, b ≠ 10)
    (hlen : (body ++ [10]).length ≤ 511) :
    fgets s MAX_MESSAGE_SIZE { data := body ++ [10] ++ rest, fails := fails } =
      (some (body ++ [10]), store s (body ++ [10]), { data := rest, fails := fails }) := by
  have hl : body.length < MAX_MESSAGE_SIZE - 1 := by
    simp [MAX_MESSAGE_SIZE] at hlen ⊢
    omega
  have h := readLine_line (MAX_MESSAGE_SIZE - 1) body rest hnl hl
  simp [fgets, h]

theorem fgets_full (s pre rest : List Byte) (fails : Bool) (hnl : ∀ b ∈ pre, b ≠ 10)
    (hlen : pre.length = 511) :
    fgets s MAX_MESSAGE_SIZE { data := pre ++ rest, fails := fails } =
      (some pre, store s pre, { data := rest, fails := fails }) := by
  have hk : MAX_MESSAGE_SIZE - 1 = pre.length := by simp [MAX_MESSAGE_SIZE, hlen]
  have h := readLine_full pre rest hnl
  simp [fgets, hk, h]

theorem payload_store (s l : List Byte) :
    (store s l).take (strlen (store s l)) = cstr l := by
  unfold store strlen
  rw [cstr_append_nul]
  have hp : cstr l <+: l ++ 0 :: List.drop (l.length + 1) s :=
    (List.takeWhile_prefix (fun b => b != 0)).trans (List.prefix_append l _)
  exact (List.prefix_iff_eq_take.mp hp).symm

theorem send_loop_step (sock : Int) (sendRet : Nat → List Byte → Int) (fuel k : Nat)
    (message l : List Byte) (inp inp' : Stdin)
    (hf : fgets message MAX_MESSAGE_SIZE inp = (some l, store message l, inp')) :
    send_loop sock sendRet (fuel + 1) k message inp =
      if sendRet k (cstr l) ≤ 0 then
        ([Event.fgets 512 (some l), Event.send sock (cstr l) (sendRet k (cstr l)),
          Event.stdout sendFailNotice], true)
      else
        (Event.fgets 512 (some l) :: Event.send sock (cstr l) (sendRet k (cstr l))
          :: (send_loop sock sendRet fuel (k + 1) (store message l) inp').1,
         (send_loop sock sendRet fuel (k + 1) (store message l) inp').2) := by
  rw [send_loop, hf]
  simp only [payload_store]
  rfl

theorem send_loop_unit (sock : Int) (sendRet : Nat → List Byte → Int) (fuel k : Nat)
    (message l : List Byte) (inp inp' : Stdin)
    (hf : fgets message MAX_MESSAGE_SIZE inp = (some l, store message l, inp'))
    (hnul : ∀ b ∈ l, b ≠ 0) :
    send_loop sock sendRet (fuel + 1) k message inp =
      if sendRet k l ≤ 0 then
        ([Event.fgets 512 (some l), Event.send sock l (sendRet k l),
          Event.stdout sendFailNotice], true)
      else
        (Event.fgets 512 (some l) :: Event.send sock l (sendRet k l)
          :: (send_loop sock sendRet fuel (k + 1) (store message l) inp').1,
         (send_loop sock sendRet fuel (k + 1) (store message l) inp').2) := by
  have h := send_loop_step sock sendRet fuel k message l inp inp' hf
  rwa [cstr_of_no_nul l hnul] at h

theorem send_loop_eof (sock : Int) (sendRet : Nat → List Byte → Int) (fuel k : Nat)
    (message : List Byte) (fails : Bool) :
    send_loop sock sendRet (fuel + 1) k message { data := [], fails := fails } =
      ([Event.fgets 512 none], true) := by
  simp [send_loop, fgets, readLine, MAX_MESSAGE_SIZE]

theorem send_loop_line_chunks (sock : Int) (sendRet : Nat → List Byte → Int)
    (hsend : ∀ (k : Nat) (p : List Byte), p ≠ [] → 0 < sendRet k p) :
    ∀ (n : Nat) (body : List Byte), body.length ≤ n →
      (∀ b ∈ body, b ≠ 10) → (∀ b ∈ body, b ≠ 0) →
      ∀ (fuel k : Nat) (message rest : List Byte) (fails : Bool),
      ∃ (chunks : List (List Byte)) (message' : List Byte),
        chunks.flatten = body ++ [10] ∧
        (∀ c ∈ chunks, 0 < c.length ∧ c.length ≤ 511) ∧
        (511 < (body ++ [10]).length → 2 ≤ chunks.length) ∧
        send_loop sock sendRet (fuel + chunks.length) k message
            { data := body ++ [10] ++ rest, fails := fails } =
          (sendEvents sock sendRet k chunks
            ++ (send_loop sock sendRet fuel (k + chunks.length) message'
                { data := rest, fails := fails }).1,
           (send_loop sock sendRet fuel (k + chunks.length) message'
                { data := rest, fails := fails }).2) := by
  intro n
  induction n with
  | zero =>
    intro body hn hnl hnul fuel k message rest fails
    have hb : body = [] := List.length_eq_zero.mp (Nat.le_zero.mp hn)
    subst hb
    refine ⟨[[10]], store message [10], by simp, by simp, by simp, ?_⟩
    have hf := fgets_line message [] rest fails (by simp) (by simp)
    have hu := send_loop_unit sock sendRet fuel k message ([] ++ [10]) _ _ hf (by simp)
    have hp : ¬ (sendRet k ([] ++ [10]) ≤ 0) := not_le.mpr (hsend k _ (by simp))
    rw [if_neg hp] at hu
    simpa [sendEvents] using hu
  | succ n ih =>
    intro body hn hnl hnul fuel k message rest fails
    by_cases hshort : (body ++ [10]).length ≤ 511
    · refine ⟨[body ++ [10]], store message (body ++ [10]), by simp, ?_, ?_, ?_⟩
      · intro c hc
        simp only [List.mem_singleton] at hc
        subst hc
        exact ⟨by simp, hshort⟩
      · intro h
        omega
      · have hf := fgets_line message body rest fails hnl hshort
        have hl : ∀ b ∈ body ++ [10], b ≠ 0 := by
          intro b hb
          rcases List.mem_append.mp hb with h | h
          · exact hnul b h
          · simp only [List.mem_singleton] at h
            subst h
            decide
        have hu := send_loop_unit sock sendRet fuel k message (body ++ [10]) _ _ hf hl
        have hp : ¬ (sendRet k (body ++ [10]) ≤ 0) := not_le.mpr (hsend k _ (by simp))
        rw [if_neg hp] at hu
        simpa [sendEvents] using hu
    · have hlong : 511 ≤ body.length := by
        simp only [List.length_append, List.length_singleton] at hshort
        omega
      have hsplit : body = body.take 511 ++ body.drop 511 := (List.take_append_drop 511 body).symm
      have hpl : (body.take 511).length = 511 := by
        rw [List.length_take]
        omega
      have hdl : (body.drop 511).length ≤ n := by
        rw [List.length_drop]
        omega
      have hpnl : ∀ b ∈ body.take 511, b ≠ 10 := fun b hb => hnl b (List.mem_of_mem_take hb)
      have hpnul : ∀ b ∈ body.take 511, b ≠ 0 := fun b hb => hnul b (List.mem_of_mem_take hb)
      have hdnl : ∀ b ∈ body.drop 511, b ≠ 10 := fun b hb => hnl b (List.mem_of_mem_drop hb)
      have hdnul : ∀ b ∈ body.drop 511, b ≠ 0 := fun b hb => hnul b (List.mem_of_mem_drop hb)
      obtain ⟨chunks, message', hj, hsz, -, hrun⟩ :=
        ih (body.drop 511) hdl hdnl hdnul fuel (k + 1) (store message (body.take 511)) rest fails
      have hne : chunks ≠ [] := by
        intro h
        subst h
        simp at hj
      have hcl : 1 ≤ chunks.length := Nat.one_le_iff_ne_zero.mpr (by
        intro h
        exact hne (List.length_eq_zero.mp h))
      refine ⟨body.take 511 :: chunks, message', ?_, ?_, ?_, ?_⟩
      · rw [List.flatten_cons, hj, ← List.append_assoc, List.take_append_drop]
      · intro c hc
        rcases List.mem_cons.mp hc with h | h
        · subst h
          omega
        · exact hsz c h
      · intro _
        simp only [List.length_cons]
        omega
      · have hdata : body ++ [10] ++ rest = body.take 511 ++ (body.drop 511 ++ [10] ++ rest) := by
          have ht := List.take_append_drop 511 body
          calc body ++ [10] ++ rest
              = (body.take 511 ++ body.drop 511) ++ [10] ++ rest := by rw [ht]
            _ = body.take 511 ++ (body.drop 511 ++ [10] ++ rest) := by
              simp only [List.append_assoc]
        have hf := fgets_full message (body.take 511) (body.drop 511 ++ [10] ++ rest) fails
          hpnl hpl
        have hfuel : fuel + (body.take 511 :: chunks).length = (fuel + chunks.length) + 1 := by
          simp only [List.length_cons]
          omega
        have hu := send_loop_unit sock sendRet (fuel + chunks.length) k message (body.take 511)
          _ _ hf hpnul
        have hp : ¬ (sendRet k (body.take 511) ≤ 0) :=
          not_le.mpr (hsend k _ (by
            intro h
            rw [h] at hpl
            simp at hpl))
        rw [if_neg hp, hrun] at hu
        have hk : k + (body.take 511 :: chunks).length = k + 1 + chunks.length := by
          simp only [List.length_cons]
          omega
        rw [hdata, hfuel, hu, hk]
        simp [sendEvents]

theorem readLine_length (k : Nat) (data : List Byte) :
    (readLine k data).1.length + (readLine k data).2.1.length = data.length := by
  induction k generalizing data with
  | zero => simp [readLine]
  | succ k ih =>
    cases data with
    | nil => simp [readLine]
    | cons c cs =>
      by_cases hc : c = 10
      · simp only [readLine, hc, if_true, List.length_cons, List.length_nil]
        omega
      · have h := ih cs
        simp only [readLine, hc, if_false, List.length_cons]
        omega

theorem readLine_nonempty (k : Nat) (data : List Byte)
    (h : (readLine (k + 1) data).1 = []) : (readLine (k + 1) data).2.2 = true := by
  cases data with
  | nil => simp [readLine]
  | cons c cs =>
    by_cases hc : c = 10
    · simp [readLine, hc] at h
    · simp [readLine, hc] at h

theorem fgets_consumes (s : List Byte) (inp : Stdin) (l s' : List Byte) (inp' : Stdin)
    (h : fgets s MAX_MESSAGE_SIZE inp = (some l, s', inp')) :
    inp'.data.length < inp.data.length := by
  have hk : MAX_MESSAGE_SIZE - 1 = 510 + 1 := by decide
  have hlen := readLine_length (510 + 1) inp.data
  have hne := readLine_nonempty 510 inp.data
  unfold fgets at h
  rw [hk] at h
  by_cases hcond : ((readLine (510 + 1) inp.data).2.2
      && (inp.fails || (readLine (510 + 1) inp.data).1.isEmpty)) = true
  · simp [hcond] at h
  · simp only [hcond, Bool.false_eq_true, if_false, Prod.mk.injEq, Option.some.injEq] at h
    obtain ⟨h1, -, h3⟩ := h
    subst h3
    have hl : (readLine (510 + 1) inp.data).1 ≠ [] := by
      intro he
      apply hcond
      simp [hne he, he]
    have hpos : 0 < (readLine (510 + 1) inp.data).1.length := List.length_pos.mpr hl
    simp only
    omega

theorem send_loop_finishes (sock : Int) (sendRet : Nat → List Byte → Int) :
    ∀ (fuel k : Nat) (message : List Byte) (inp : Stdin), inp.data.length < fuel →
      (send_loop sock sendRet fuel k message inp).2 = true := by
  intro fuel
  induction fuel with
  | zero => intro k message inp h; omega
  | succ n ih =>
    intro k message inp h
    rw [send_loop]
    rcases hf : fgets message MAX_MESSAGE_SIZE inp with ⟨_ | l, s', inp'⟩
    · rfl
    · have hc := fgets_consumes message inp l s' inp' hf
      simp only
      split
      · rfl
      · exact ih _ _ _ (by omega)

theorem send_loop_events (sock : Int) (sendRet : Nat → List Byte → Int) :
    ∀ (fuel k : Nat) (message : List Byte) (inp : Stdin),
      ∀ e ∈ (send_loop sock sendRet fuel k message inp).1, isLoopEvent sock e := by
  intro fuel
  induction fuel with
  | zero => intro k message inp e he; simp [send_loop] at he
  | succ n ih =>
    intro k message inp e he
    rw [send_loop] at he
    rcases hf : fgets message MAX_MESSAGE_SIZE inp with ⟨_ | l, s', inp'⟩
    · rw [hf] at he
      simp only [List.mem_singleton] at he
      subst he
      rfl
    · rw [hf] at he
      simp only at he
      split at he
      · simp only [List.mem_cons, List.mem_singleton, List.not_mem_nil, or_false] at he
        rcases he with h | h | h <;> subst h <;> simp [isLoopEvent, MAX_MESSAGE_SIZE]
      · simp only [List.mem_cons] at he
        rcases he with h | h | h
        · subst h; simp [isLoopEvent, MAX_MESSAGE_SIZE]
        · subst h; simp [isLoopEvent]
        · exact ih _ _ _ e h

theorem receive_messages_total (sock : Int) :
    ∀ (fuel : Nat) (stream : List Arrival), streamFuel stream ≤ fuel →
      (receive_messages sock fuel stream).2 ≠ RelayEnd.unfinished := by
  intro fuel
  induction fuel with
  | zero =>
    intro stream h
    cases stream with
    | nil => simp [streamFuel] at h
    | cons a rest => cases a <;> simp [streamFuel] at h
  | succ n ih =>
    intro stream h
    cases stream with
    | nil => simp [receive_messages, recv]
    | cons a rest =>
      cases a with
      | err => simp [receive_messages, recv]
      | fin => simp [receive_messages, recv]
      | data bs =>
        by_cases hb : bs.length ≤ BUFFER_SIZE - 1
        · by_cases h0 : (bs.length : Int) ≤ 0
          · simp [receive_messages, recv, hb, h0]
          · have hr : streamFuel rest ≤ n := by
              simp only [streamFuel] at h
              omega
            simp only [receive_messages, recv, hb, if_true, h0, if_false]
            exact ih rest hr
        · have h0 : ¬ (((BUFFER_SIZE - 1 : Nat) : Int) ≤ 0) := by simp [BUFFER_SIZE]
          have hr : streamFuel (Arrival.data (bs.drop (BUFFER_SIZE - 1)) :: rest) ≤ n := by
            simp only [streamFuel, List.length_drop] at h ⊢
            simp only [BUFFER_SIZE] at hb ⊢
            omega
          simp only [receive_messages, recv, hb, if_false, h0]
          exact ih _ hr

/-- C4, counterexample: the positive chunk `h NUL i` is followed by an
orderly shutdown.  The thread keeps reading after the chunk and stops at the
shutdown as claimed, but what it displays for the chunk is `Peer: h`, not the
chunk. -/
theorem receive_messages_shows_chunk_cut :
    receive_messages 4 2 [Arrival.data [104, 0, 105], Arrival.fin] =
        ([Event.recv 4 1023 3 [104, 0, 105], Event.stdout (str "Peer: h"), Event.fflush,
          Event.recv 4 1023 0 [], Event.stdout lostNotice, Event.close 4, Event.exit 0],
         RelayEnd.exited 0) ∧
      str "Peer: h" ≠ str "Peer: " ++ [104, 0, 105] := by
  decide

/-- C4, amended: `receive_messages` stops at the first `recv` result that is
zero or negative.  Whatever the positive chunks `chunks` that come first, and
whatever would arrive afterwards (`post`), the thread receives each chunk in
turn, displays `Peer: ` followed by the bytes of the chunk that precede its
first NUL byte (`shown c`: a NUL-free front part of `c` that is either all of
`c` or is followed in `c` by a NUL; the whole chunk when it has no NUL) and
keeps reading; at the first result that is not positive it prints the
disconnect notice, closes the connection and exits with status 0, and the
trace ends there: no further `recv`, no further peer text. -/
theorem receive_messages_stops_at_first_nonpositive (sock : Int) (fuel : Nat)
    (chunks : List (List Byte)) (stop : Arrival) (post : List Arrival)
    (hchunks : ∀ c ∈ chunks, 0 < c.length ∧ c.length ≤ 1023)
    (hstop : stop = Arrival.fin ∨ stop = Arrival.err ∨ stop = Arrival.data [])
    (hfuel : chunks.length < fuel) :
    stopRet stop ≤ 0 ∧
    ∃ shown : List Byte → List Byte,
      (∀ c : List Byte, ∃ rest : List Byte, c = shown c ++ rest ∧
        (∀ b ∈ shown c, b ≠ 0) ∧ (rest = [] ∨ ∃ t, rest = 0 :: t)) ∧
      (∀ c : List Byte, (∀ b ∈ c, b ≠ 0) → shown c = c) ∧
      receive_messages sock fuel (chunks.map Arrival.data ++ stop :: post) =
        (chunks.flatMap (fun c =>
            [Event.recv sock 1023 (c.length : Int) c,
             Event.stdout (str "Peer: " ++ shown c), Event.fflush])
          ++ [Event.recv sock 1023 (stopRet stop) [],
              Event.stdout (str "\n[Connection lost or peer disconnected]\n"),
              Event.close sock, Event.exit 0],
         RelayEnd.exited 0) := by
  constructor
  · rcases hstop with h | h | h <;> subst h <;> simp [stopRet]
  · refine ⟨cstr, cstr_split, cstr_of_no_nul, ?_⟩
    obtain ⟨n, rfl⟩ : ∃ n, fuel = (n + 1) + chunks.length :=
      ⟨fuel - chunks.length - 1, by omega⟩
    rw [receive_messages_chunks sock (n + 1) chunks (stop :: post) hchunks,
      receive_messages_stop sock n stop post hstop]
    rfl

/-- Witness for C4 (amended): two chunks, the second with a NUL in it, then an
orderly shutdown, then data that is never read. -/
theorem receive_messages_stops_at_first_nonpositive_witness :
    stopRet Arrival.fin ≤ 0 ∧
    ∃ shown : List Byte → List Byte,
      (∀ c : List Byte, ∃ rest : List Byte, c = shown c ++ rest ∧
        (∀ b ∈ shown c, b ≠ 0) ∧ (rest = [] ∨ ∃ t, rest = 0 :: t)) ∧
      (∀ c : List Byte, (∀ b ∈ c, b ≠ 0) → shown c = c) ∧
      receive_messages 4 3
          ([str "hi\n", [121, 0, 111]].map Arrival.data
            ++ Arrival.fin :: [Arrival.data (str "late")]) =
        ([str "hi\n", [121, 0, 111]].flatMap (fun c =>
            [Event.recv 4 1023 (c.length : Int) c,
             Event.stdout (str "Peer: " ++ shown c), Event.fflush])
          ++ [Event.recv 4 1023 (stopRet Arrival.fin) [],
              Event.stdout (str "\n[Connection lost or peer disconnected]\n"),
              Event.close 4, Event.exit 0],
         RelayEnd.exited 0) :=
  receive_messages_stops_at_first_nonpositive 4 3 [str "hi\n", [121, 0, 111]] Arrival.fin
    [Arrival.data (str "late")] (by decide) (Or.inl rfl) (by decide)

/-- C2, counterexample: the chunk `a NUL b` is received whole, but the text
written is `Peer: a`; the bytes from the NUL on are dropped. -/
theorem receive_messages_drops_after_nul :
    (receive_messages 4 2 [Arrival.data [97, 0, 98]]).1 =
        [Event.recv 4 1023 3 [97, 0, 98], Event.stdout (str "Peer: a"), Event.fflush] ∧
      displayed (receive_messages 4 2 [Arrival.data [97, 0, 98]]).1
        ≠ [peerTag ++ [97, 0, 98]] := by
  decide

/-- C2, amended: for every sequence of non-empty chunks returned by `recv`
that contain no NUL byte, the text written to local output is, chunk by chunk
and in order, `Peer: ` followed by exactly the bytes of that chunk. -/
theorem receive_messages_displays_chunks (sock : Int) (fuel : Nat)
    (chunks : List (List Byte))
    (hchunks : ∀ c ∈ chunks, 0 < c.length ∧ c.length ≤ 1023)
    (hnul : ∀ c ∈ chunks, ∀ b ∈ c, b ≠ 0)
    (hfuel : chunks.length < fuel) :
    receive_messages sock fuel (chunks.map Arrival.data) =
        (chunks.flatMap (fun c =>
          [Event.recv sock 1023 (c.length : Int) c,
           Event.stdout (peerTag ++ c), Event.fflush]),
         RelayEnd.waiting) ∧
      displayed (receive_messages sock fuel (chunks.map Arrival.data)).1
        = chunks.map (fun c => peerTag ++ c) := by
  obtain ⟨n, rfl⟩ : ∃ n, fuel = (n + 1) + chunks.length :=
    ⟨fuel - chunks.length - 1, by omega⟩
  have h := receive_messages_chunks sock (n + 1) chunks [] hchunks
  rw [List.append_nil, receive_messages_idle] at h
  have e : chunks.flatMap (fun c => chunkEvents sock c (cstr c)) =
      chunks.flatMap (fun c =>
          [Event.recv sock 1023 (c.length : Int) c,
           Event.stdout (peerTag ++ c), Event.fflush]) := by
    apply List.flatMap_congr
    intro c hc
    rw [cstr_of_no_nul c (hnul c hc)]
    rfl
  rw [h, List.append_nil, e]
  exact ⟨rfl, displayed_chunks sock chunks⟩

/-- Witness for C2 (amended). -/
theorem receive_messages_displays_chunks_witness :
    receive_messages 4 3 ([str "hello\n", str "wor"].map Arrival.data) =
        ([str "hello\n", str "wor"].flatMap (fun c =>
          [Event.recv 4 1023 (c.length : Int) c,
           Event.stdout (peerTag ++ c), Event.fflush]),
         RelayEnd.waiting) ∧
      displayed (receive_messages 4 3 ([str "hello\n", str "wor"].map Arrival.data)).1
        = [str "hello\n", str "wor"].map (fun c => peerTag ++ c) :=
  receive_messages_displays_chunks 4 3 [str "hello\n", str "wor"] (by decide) (by decide)
    (by decide)

/-- C10, counterexample: with 1024 bytes available on the stream, the first
read asks for 1023 bytes and gets 1023; the last byte needs a second read. -/
theorem receive_messages_1024_needs_two_reads :
    (receive_messages 4 3 [Arrival.data (List.replicate 1024 65)]).1 =
      [Event.recv 4 1023 1023 (List.replicate 1023 65),
       Event.stdout (peerTag ++ List.replicate 1023 65), Event.fflush,
       Event.recv 4 1023 1 [65],
       Event.stdout (peerTag ++ [65]), Event.fflush] := by
  have hnul : ∀ b ∈ List.replicate 1023 (65 : Byte), b ≠ 0 := by
    intro b hb
    rw [List.eq_of_mem_replicate hb]
    decide
  have hbig : BUFFER_SIZE - 1 < (List.replicate 1024 (65 : Byte)).length := by
    rw [List.length_replicate]
    decide
  have hmin : min (BUFFER_SIZE - 1) 1024 = 1023 := by decide
  have hsub : 1024 - (BUFFER_SIZE - 1) = 1 := by decide
  have ht : List.take (BUFFER_SIZE - 1) (List.replicate 1024 (65 : Byte))
      = List.replicate 1023 65 := by
    rw [List.take_replicate, hmin]
  have hd : List.drop (BUFFER_SIZE - 1) (List.replicate 1024 (65 : Byte)) = [65] := by
    rw [List.drop_replicate, hsub]
    rfl
  have hone : cstr [(65 : Byte)] = [65] := by decide
  rw [receive_messages_split 4 2 (List.replicate 1024 65) [] hbig, ht, hd,
    cstr_of_no_nul _ hnul, receive_messages_chunk 4 1 [65] [] (by decide) (by decide),
    receive_messages_idle, hone]
  unfold chunkEvents
  rw [List.length_replicate]
  rfl

/-- C10, amended: every read attempt asks the connection for up to 1023 bytes
(`BUFFER_SIZE - 1`) and never delivers more, so that a chunk of up to 1023
bytes available on the stream is received in a single read. -/
theorem receive_messages_reads_1023 (sock : Int) (fuel : Nat) (stream : List Arrival) :
    (∀ e ∈ (receive_messages sock fuel stream).1, ∀ (fd : Int) (len : Nat) (ret : Int)
      (d : List Byte), e = Event.recv fd len ret d → len = 1023 ∧ d.length ≤ 1023) ∧
    (∀ c : List Byte, 0 < c.length → c.length ≤ 1023 →
      (receive_messages sock (fuel + 1) (Arrival.data c :: stream)).1.head?
        = some (Event.recv sock 1023 (c.length : Int) c)) := by
  constructor
  · intro e he fd len ret d hd
    have h := recv_request_bound sock fuel stream e he fd len ret d hd
    exact ⟨h.1, h.2.1⟩
  · intro c hpos hle
    rw [receive_messages_chunk sock fuel c stream hpos hle]
    rfl

/-- Witness for C10 (amended). -/
theorem receive_messages_reads_1023_witness :
    (1023 = 1023 ∧ (str "hi\n").length ≤ 1023) ∧
      (receive_messages 4 (2 + 1) (Arrival.data (str "hello\n") :: [Arrival.data (str "hi\n")])).1.head?
        = some (Event.recv 4 1023 ((str "hello\n").length : Int) (str "hello\n")) :=
  ⟨(receive_messages_reads_1023 4 2 [Arrival.data (str "hi\n")]).1
      (Event.recv 4 1023 3 (str "hi\n")) (by decide) 4 1023 3 (str "hi\n") rfl,
   (receive_messages_reads_1023 4 2 [Arrival.data (str "hi\n")]).2 (str "hello\n")
      (by decide) (by decide)⟩

/-- C1, counterexample: the line `a NUL b` followed by a newline is read
whole (4 bytes), but the payload handed to `send` is the single byte `a`. -/
theorem main_sends_line_cut_at_nul :
    linesRead (main ["chat", "server", "5000"] (okEnv [97, 0, 98, 10])).trace
        = [[97, 0, 98, 10]] ∧
      sentPayloads (main ["chat", "server", "5000"] (okEnv [97, 0, 98, 10])).trace
        = [[97]] := by
  decide

/-- C1, amended: for every line of local input that is at most 511 bytes long
including its trailing newline and contains no NUL byte, the iteration that
reads it issues exactly one `send`, whose payload is exactly the bytes of the
line, newline included; after it the loop either stops (the `send` returned
zero or less) or goes on with the input that follows the line. -/
theorem send_loop_sends_line (sock : Int) (sendRet : Nat → List Byte → Int) (fuel k : Nat)
    (message body rest : List Byte) (fails : Bool)
    (hnl : ∀ b ∈ body, b ≠ 10) (hnul : ∀ b ∈ body, b ≠ 0)
    (hlen : (body ++ [10]).length ≤ 511) :
    send_loop sock sendRet (fuel + 1) k message
        { data := body ++ [10] ++ rest, fails := fails } =
      if sendRet k (body ++ [10]) ≤ 0 then
        ([Event.fgets 512 (some (body ++ [10])),
          Event.send sock (body ++ [10]) (sendRet k (body ++ [10])),
          Event.stdout sendFailNotice], true)
      else
        (Event.fgets 512 (some (body ++ [10]))
          :: Event.send sock (body ++ [10]) (sendRet k (body ++ [10]))
          :: (send_loop sock sendRet fuel (k + 1) (store message (body ++ [10]))
                { data := rest, fails := fails }).1,
         (send_loop sock sendRet fuel (k + 1) (store message (body ++ [10]))
                { data := rest, fails := fails }).2) := by
  have hf := fgets_line message body rest fails hnl hlen
  have hl : ∀ b ∈ body ++ [10], b ≠ 0 := by
    intro b hb
    rcases List.mem_append.mp hb with h | h
    · exact hnul b h
    · simp only [List.mem_singleton] at h
      subst h
      decide
  exact send_loop_unit sock sendRet fuel k message (body ++ [10]) _ _ hf hl

/-- Witness for C1 (amended): the line `hi`, followed by more input. -/
theorem send_loop_sends_line_witness :
    send_loop 4 wholeSend (5 + 1) 0 (List.replicate 512 0)
        { data := [104, 105] ++ [10] ++ [111, 107, 10], fails := false } =
      if wholeSend 0 ([104, 105] ++ [10]) ≤ 0 then
        ([Event.fgets 512 (some ([104, 105] ++ [10])),
          Event.send 4 ([104, 105] ++ [10]) (wholeSend 0 ([104, 105] ++ [10])),
          Event.stdout sendFailNotice], true)
      else
        (Event.fgets 512 (some ([104, 105] ++ [10]))
          :: Event.send 4 ([104, 105] ++ [10]) (wholeSend 0 ([104, 105] ++ [10]))
          :: (send_loop 4 wholeSend 5 (0 + 1)
                (store (List.replicate 512 0) ([104, 105] ++ [10]))
                { data := [111, 107, 10], fails := false }).1,
         (send_loop 4 wholeSend 5 (0 + 1)
                (store (List.replicate 512 0) ([104, 105] ++ [10]))
                { data := [111, 107, 10], fails := false }).2) :=
  send_loop_sends_line 4 wholeSend 5 0 (List.replicate 512 0)
    [104, 105] [111, 107, 10] false (by decide) (by decide) (by decide)

theorem replicate_ne (n : Nat) (a c : Byte) (h : a ≠ c) : ∀ b ∈ List.replicate n a, b ≠ c := by
  intro b hb
  rw [List.eq_of_mem_replicate hb]
  exact h

/-- C9, counterexample.  First, a 601-byte line with a NUL in it is sent as two
payloads of 1 and 90 bytes: 510 bytes are lost at the first split.  Second,
when the first `send` fails, a 601-byte line without NUL gets one payload of
511 bytes and the remaining 90 bytes are never sent. -/
theorem send_loop_oversized_line_lost :
    nulLine.length = 601 ∧
      sentPayloads (send_loop 4 wholeSend 3 0 (List.replicate 512 0)
          { data := nulLine, fails := false }).1
        = [[97], List.replicate 89 98 ++ [10]] ∧
      longLine.length = 601 ∧
      sentPayloads (send_loop 4 failSend 3 0 (List.replicate 512 0)
          { data := longLine, fails := false }).1
        = [List.replicate 511 98] := by
  have htail : List.replicate 89 (98 : Byte) ++ [10]
      = List.replicate 89 98 ++ [10] ++ [] := (List.append_nil _).symm
  have htnl : ∀ b ∈ List.replicate 89 (98 : Byte), b ≠ 10 := replicate_ne 89 98 10 (by decide)
  have htnul : ∀ b ∈ List.replicate 89 (98 : Byte) ++ [10], b ≠ 0 := by
    intro b hb
    rcases List.mem_append.mp hb with h | h
    · exact replicate_ne 89 98 0 (by decide) b h
    · simp only [List.mem_singleton] at h
      subst h
      decide
  have htlen : (List.replicate 89 (98 : Byte) ++ [10]).length = 90 := by
    rw [List.length_append, List.length_replicate]
    rfl
  refine ⟨?_, ?_, ?_, ?_⟩
  · unfold nulLine
    rw [List.length_append, List.length_append, List.length_append, List.length_replicate,
      List.length_replicate]
    rfl
  · have hpnl : ∀ b ∈ [97, 0] ++ List.replicate 509 (98 : Byte), b ≠ 10 := by
      intro b hb
      rcases List.mem_append.mp hb with h | h
      · simp only [List.mem_cons, List.mem_singleton, List.not_mem_nil, or_false] at h
        rcases h with h | h <;> subst h <;> decide
      · exact replicate_ne 509 98 10 (by decide) b h
    have hplen : ([97, 0] ++ List.replicate 509 (98 : Byte)).length = 511 := by
      rw [List.length_append, List.length_replicate]
      rfl
    have hcut : cstr ([97, 0] ++ List.replicate 509 (98 : Byte)) = [97] :=
      cstr_append_nul [97] (List.replicate 509 98)
    have hf1 := fgets_full (List.replicate 512 0) ([97, 0] ++ List.replicate 509 (98 : Byte))
      (List.replicate 89 98 ++ [10]) false hpnl hplen
    have hs1 := send_loop_step 4 wholeSend 2 0 _ _ _ _ hf1
    have hf2 := fgets_line (store (List.replicate 512 0) ([97, 0] ++ List.replicate 509 98))
      (List.replicate 89 98) [] false htnl (by rw [htlen]; decide)
    have hs2 := send_loop_unit 4 wholeSend 1 (0 + 1) _ _ _ _ hf2 htnul
    have hw1 : ¬ (wholeSend 0 [97] ≤ 0) := by decide
    have hw2 : ¬ (wholeSend (0 + 1) (List.replicate 89 (98 : Byte) ++ [10]) ≤ 0) := by
      unfold wholeSend
      rw [htlen]
      decide
    rw [hcut, if_neg hw1] at hs1
    rw [if_neg hw2, send_loop_eof] at hs2
    unfold nulLine
    rw [hs1, htail, hs2]
    rfl
  · unfold longLine
    rw [List.length_append, List.length_append, List.length_replicate, List.length_replicate]
    rfl
  · have hf := fgets_full (List.replicate 512 0) (List.replicate 511 (98 : Byte))
      (List.replicate 89 98 ++ [10]) false (replicate_ne 511 98 10 (by decide))
      (List.length_replicate 511 98)
    have hs := send_loop_unit 4 failSend 2 0 _ _ _ _ hf (replicate_ne 511 98 0 (by decide))
    have hw : failSend 0 (List.replicate 511 (98 : Byte)) ≤ 0 := by
      unfold failSend
      decide
    rw [if_pos hw] at hs
    unfold longLine
    rw [hs]
    rfl

/-- C9, amended: for every local input line longer than 511 bytes (newline
included) that contains no NUL byte, and as long as `send` succeeds on every
non-empty payload, the line is sent as two or more consecutive payloads, each
within the bound of 512 bytes including the terminator, whose concatenation in
order equals the original line; the loop makes no other call in between and
then goes on with the input after the line. -/
theorem send_loop_splits_oversized_line (sock : Int) (sendRet : Nat → List Byte → Int)
    (fuel k : Nat) (message body rest : List Byte) (fails : Bool)
    (hnl : ∀ b ∈ body, b ≠ 10) (hnul : ∀ b ∈ body, b ≠ 0)
    (hlong : 511 < (body ++ [10]).length)
    (hsend : ∀ (j : Nat) (p : List Byte), p ≠ [] → 0 < sendRet j p) :
    ∃ (chunks : List (List Byte)) (message' : List Byte),
      2 ≤ chunks.length ∧
      (∀ c ∈ chunks, 0 < c.length ∧ c.length + 1 ≤ 512) ∧
      chunks.flatten = body ++ [10] ∧
      send_loop sock sendRet (fuel + chunks.length) k message
          { data := body ++ [10] ++ rest, fails := fails } =
        (sendEvents sock sendRet k chunks
          ++ (send_loop sock sendRet fuel (k + chunks.length) message'
              { data := rest, fails := fails }).1,
         (send_loop sock sendRet fuel (k + chunks.length) message'
              { data := rest, fails := fails }).2) ∧
      sentPayloads (sendEvents sock sendRet k chunks) = chunks := by
  obtain ⟨chunks, message', hj, hsz, h2, hrun⟩ :=
    send_loop_line_chunks sock sendRet hsend body.length body (le_refl _) hnl hnul
      fuel k message rest fails
  refine ⟨chunks, message', h2 hlong, ?_, hj, hrun, sentPayloads_sendEvents sock sendRet chunks k⟩
  intro c hc
  have h := hsz c hc
  exact ⟨h.1, by omega⟩

/-- Witness for C9 (amended): the 601-byte line `longLine`. -/
theorem send_loop_splits_oversized_line_witness :
    ∃ (chunks : List (List Byte)) (message' : List Byte),
      2 ≤ chunks.length ∧
      (∀ c ∈ chunks, 0 < c.length ∧ c.length + 1 ≤ 512) ∧
      chunks.flatten = List.replicate 600 98 ++ [10] ∧
      send_loop 4 wholeSend (1 + chunks.length) 0 (List.replicate 512 0)
          { data := List.replicate 600 98 ++ [10] ++ [], fails := false } =
        (sendEvents 4 wholeSend 0 chunks
          ++ (send_loop 4 wholeSend 1 (0 + chunks.length) message'
              { data := [], fails := false }).1,
         (send_loop 4 wholeSend 1 (0 + chunks.length) message'
              { data := [], fails := false }).2) ∧
      sentPayloads (sendEvents 4 wholeSend 0 chunks) = chunks :=
  send_loop_splits_oversized_line 4 wholeSend 1 0 (List.replicate 512 0)
    (List.replicate 600 98) [] false (replicate_ne 600 98 10 (by decide))
    (replicate_ne 600 98 0 (by decide))
    (by rw [List.length_append, List.length_replicate]; decide)
    (by
      intro j p hp
      unfold wholeSend
      exact_mod_cast List.length_pos.mpr hp)

theorem closedFds_append (a b : List Event) : closedFds (a ++ b) = closedFds a ++ closedFds b := by
  induction a with
  | nil => rfl
  | cons e a ih => cases e <;> simp [closedFds, ih]

theorem closedFds_loop (sock : Int) (l : List Event) (h : ∀ e ∈ l, isLoopEvent sock e) :
    closedFds l = [] := by
  induction l with
  | nil => rfl
  | cons e l ih =>
    have he := h e (List.mem_cons_self e l)
    have hl := ih (fun x hx => h x (List.mem_cons_of_mem e hx))
    cases e <;> simp [isLoopEvent] at he <;> simp [closedFds, hl]

theorem send_loop_last (sock : Int) (sendRet : Nat → List Byte → Int) :
    ∀ (fuel k : Nat) (message : List Byte) (inp : Stdin),
      (send_loop sock sendRet fuel k message inp).2 = true →
      (∃ init, (send_loop sock sendRet fuel k message inp).1
          = init ++ [Event.fgets 512 none]) ∨
      (∃ init payload ret, ret ≤ 0 ∧ (send_loop sock sendRet fuel k message inp).1
          = init ++ [Event.send sock payload ret, Event.stdout sendFailNotice]) := by
  intro fuel
  induction fuel with
  | zero => intro k message inp h; simp [send_loop] at h
  | succ n ih =>
    intro k message inp h
    rw [send_loop] at h ⊢
    rcases hf : fgets message MAX_MESSAGE_SIZE inp with ⟨_ | l, s', inp'⟩
    · left
      exact ⟨[], rfl⟩
    · rw [hf] at h
      simp only at h ⊢
      split
      · rename_i hle
        right
        exact ⟨[Event.fgets MAX_MESSAGE_SIZE (some l)], _, _, hle, rfl⟩
      · rename_i hle
        rw [if_neg hle] at h
        rcases ih _ _ _ h with ⟨init, hi⟩ | ⟨init, payload, ret, hr, hi⟩
        · left
          exact ⟨_ :: _ :: init, by rw [hi]; rfl⟩
        · right
          exact ⟨_ :: _ :: init, payload, ret, hr, by rw [hi]; rfl⟩

theorem run_server_trace (env : Env) (port : Int) :
    (∀ e ∈ (run_server env port).1, e.isRelay = false) ∧
    (0 ≤ (run_server env port).2 →
      (run_server env port).2 = env.acceptRet ∧
      closedFds (run_server env port).1 = [env.socketRet] ∧
      Event.accept env.socketRet env.acceptRet ∈ (run_server env port).1) := by
  simp only [run_server]
  split_ifs <;> simp [Event.isRelay, closedFds]

theorem run_client_trace (env : Env) (ip : String) (port : Int) :
    (∀ e ∈ (run_client env ip port).1, e.isRelay = false) ∧
    (0 ≤ (run_client env ip port).2 → closedFds (run_client env ip port).1 = []) := by
  simp only [run_client]
  split_ifs <;> simp [Event.isRelay, closedFds]

theorem main_cases (argv : List String) (env : Env) :
    (∃ tr, main argv env = { trace := tr, status := some 1 } ∧ ∀ e ∈ tr, e.isRelay = false) ∨
    (∃ port, main argv env =
      main_chat env ([Event.signal SIGINT, Event.signal SIGTERM] ++ (run_server env port).1)
        (run_server env port).2) ∨
    (∃ ip port, main argv env =
      main_chat env ([Event.signal SIGINT, Event.signal SIGTERM] ++ (run_client env ip port).1)
        (run_client env ip port).2) := by
  unfold main
  simp only
  split_ifs
  · left; exact ⟨_, rfl, by simp [Event.isRelay]⟩
  · left; exact ⟨_, rfl, by simp [Event.isRelay]⟩
  · right; left; exact ⟨_, rfl⟩
  · left; exact ⟨_, rfl, by simp [Event.isRelay]⟩
  · right; right; exact ⟨_, _, rfl⟩
  · left; exact ⟨_, rfl, by simp [Event.isRelay]⟩

theorem main_chat_run (env : Env) (pre : List Event) (sock : Int) (h0 : 0 ≤ sock)
    (hth : env.pthreadRet = 0) :
    main_chat env pre sock =
      { trace := pre ++ Event.pthread_create sock 0
          :: (send_loop sock env.sendRet (env.stdin.data.length + 1) 0 env.message env.stdin).1
          ++ [Event.close sock],
        status := some 0 } := by
  have hfin := send_loop_finishes sock env.sendRet (env.stdin.data.length + 1) 0 env.message
    env.stdin (Nat.lt_succ_self _)
  unfold main_chat
  simp [not_lt.mpr h0, hth, hfin]

theorem main_chat_thread (env : Env) (pre : List Event) (s sock : Int)
    (hpre : ∀ e ∈ pre, e.isRelay = false)
    (h : Event.pthread_create sock 0 ∈ (main_chat env pre s).trace) :
    s = sock ∧ 0 ≤ s ∧ env.pthreadRet = 0 := by
  have hnot : Event.pthread_create sock 0 ∉ pre := by
    intro hm
    have := hpre _ hm
    simp [Event.isRelay] at this
  by_cases h0 : s < 0
  · exfalso
    simp [main_chat, h0, hnot] at h
  · by_cases hth : env.pthreadRet = 0
    · rw [main_chat_run env pre s (not_lt.mp h0) hth] at h
      simp only [List.mem_append, List.mem_cons, List.mem_singleton, List.not_mem_nil,
        or_false] at h
      rcases h with (h | h | h) | h
      · exact absurd h hnot
      · injection h with h1 _
        exact ⟨h1.symm, not_lt.mp h0, hth⟩
      · have := send_loop_events s env.sendRet _ _ _ _ _ h
        simp [isLoopEvent] at this
      · cases h
    · exfalso
      simp [main_chat, h0, hth, hnot] at h
      exact hth h.2.symm

theorem main_server_eq (env : Env) (prog p : String) :
    main [prog, "server", p] env =
      main_chat env ([Event.signal SIGINT, Event.signal SIGTERM] ++ (run_server env (atoi p)).1)
        (run_server env (atoi p)).2 := by
  simp [main]

theorem main_client_eq (env : Env) (prog ip p : String) :
    main [prog, "client", ip, p] env =
      main_chat env ([Event.signal SIGINT, Event.signal SIGTERM] ++ (run_client env ip (atoi p)).1)
        (run_client env ip (atoi p)).2 := by
  simp [main]

theorem main_chat_failed (env : Env) (pre : List Event) (sock : Int) (h : sock < 0) :
    main_chat env pre sock =
      { trace := pre ++ [Event.stdout (str "Failed to establish connection\n")],
        status := some 1 } := by
  simp [main_chat, h]

theorem main_chat_closes (env : Env) (pre : List Event) (sock : Int)
    (h0 : 0 ≤ sock) (hth : env.pthreadRet = 0) :
    (main_chat env pre sock).status = some 0 ∧
    (∃ loop, (main_chat env pre sock).trace
        = pre ++ (Event.pthread_create sock 0 :: loop) ++ [Event.close sock] ∧
      (∀ e ∈ loop, isLoopEvent sock e) ∧
      ((∃ init, loop = init ++ [Event.fgets 512 none]) ∨
       (∃ init payload ret, ret ≤ 0 ∧
          loop = init ++ [Event.send sock payload ret, Event.stdout sendFailNotice]))) ∧
    closedFds (main_chat env pre sock).trace = closedFds pre ++ [sock] := by
  have hfin := send_loop_finishes sock env.sendRet (env.stdin.data.length + 1) 0 env.message
    env.stdin (Nat.lt_succ_self _)
  have hev := send_loop_events sock env.sendRet (env.stdin.data.length + 1) 0 env.message
    env.stdin
  have hlast := send_loop_last sock env.sendRet (env.stdin.data.length + 1) 0 env.message
    env.stdin hfin
  rw [main_chat_run env pre sock h0 hth]
  refine ⟨rfl, ⟨_, rfl, hev, hlast⟩, ?_⟩
  simp only [closedFds_append]
  rw [show closedFds (Event.pthread_create sock 0
      :: (send_loop sock env.sendRet (env.stdin.data.length + 1) 0 env.message env.stdin).1)
      = closedFds (send_loop sock env.sendRet (env.stdin.data.length + 1) 0 env.message
          env.stdin).1 from rfl, closedFds_loop sock _ hev, List.append_nil]
  rfl

/-- C3: whenever the send loop runs (the receiving thread was started on
`sock`), `main` returns exit status 0, and its trace after the thread start
is the calls of the loop, which ends either with `fgets` returning a null
pointer (end-of-file or read error) or with a `send` that returned zero or
less, followed by one `close(sock)` and nothing more: the loop itself closes
nothing, and no `send` comes after the close.  Over the whole run the
connection is the only descriptor closed, apart from the listening socket it
was accepted on in server mode. -/
theorem main_closes_connection_once (argv : List String) (env : Env) (sock : Int)
    (h : Event.pthread_create sock 0 ∈ (main argv env).trace) :
    (main argv env).status = some 0 ∧
    (∃ before loop, (main argv env).trace
        = before ++ (Event.pthread_create sock 0 :: loop) ++ [Event.close sock] ∧
      (∀ e ∈ before, e.isRelay = false) ∧
      (∀ e ∈ loop, isLoopEvent sock e) ∧
      ((∃ init, loop = init ++ [Event.fgets 512 none]) ∨
       (∃ init payload ret, ret ≤ 0 ∧
          loop = init ++ [Event.send sock payload ret, Event.stdout sendFailNotice]))) ∧
    (closedFds (main argv env).trace = [sock] ∨
      (closedFds (main argv env).trace = [env.socketRet, sock] ∧
        Event.accept env.socketRet sock ∈ (main argv env).trace)) := by
  have hsig : ∀ (tr : List Event), (∀ e ∈ tr, e.isRelay = false) →
      ∀ e ∈ [Event.signal SIGINT, Event.signal SIGTERM] ++ tr, e.isRelay = false := by
    intro tr htr e he
    rcases List.mem_append.mp he with h1 | h1
    · simp only [List.mem_cons, List.mem_singleton, List.not_mem_nil, or_false] at h1
      rcases h1 with h1 | h1 <;> subst h1 <;> rfl
    · exact htr e h1
  rcases main_cases argv env with ⟨tr, hm, hq⟩ | ⟨port, hm⟩ | ⟨ip, port, hm⟩
  · exfalso
    rw [hm] at h
    have := hq _ h
    simp [Event.isRelay] at this
  · rw [hm] at h ⊢
    have hrs := run_server_trace env port
    have hpre := hsig _ hrs.1
    obtain ⟨hs, h0, hth⟩ := main_chat_thread env _ _ sock hpre h
    obtain ⟨hacc, hcl, hmem⟩ := hrs.2 h0
    rw [hs] at h0 hacc
    obtain ⟨hst, ⟨loop, htr, hloop, hend⟩, hclosed⟩ := main_chat_closes env
      ([Event.signal SIGINT, Event.signal SIGTERM] ++ (run_server env port).1) sock h0 hth
    rw [hs]
    refine ⟨hst, ⟨_, loop, htr, hpre, hloop, hend⟩, Or.inr ⟨?_, ?_⟩⟩
    · rw [hclosed, closedFds_append, hcl]
      rfl
    · rw [htr, hacc]
      simp only [List.mem_append]
      exact Or.inl (Or.inl (Or.inr hmem))
  · rw [hm] at h ⊢
    have hrc := run_client_trace env ip port
    have hpre := hsig _ hrc.1
    obtain ⟨hs, h0, hth⟩ := main_chat_thread env _ _ sock hpre h
    have hcl := hrc.2 h0
    rw [hs] at h0
    obtain ⟨hst, ⟨loop, htr, hloop, hend⟩, hclosed⟩ := main_chat_closes env
      ([Event.signal SIGINT, Event.signal SIGTERM] ++ (run_client env ip port).1) sock h0 hth
    rw [hs]
    refine ⟨hst, ⟨_, loop, htr, hpre, hloop, hend⟩, Or.inl ?_⟩
    rw [hclosed, closedFds_append, hcl]
    rfl

/-- Witness for C3: a client whose local input is the line `hi`. -/
theorem main_closes_connection_once_witness :
    Event.pthread_create 3 0
        ∈ (main ["chat", "client", "127.0.0.1", "5000"] (okEnv (str "hi\n"))).trace ∧
      (main ["chat", "client", "127.0.0.1", "5000"] (okEnv (str "hi\n"))).status = some 0 ∧
      (closedFds (main ["chat", "client", "127.0.0.1", "5000"] (okEnv (str "hi\n"))).trace = [3] ∨
        (closedFds (main ["chat", "client", "127.0.0.1", "5000"] (okEnv (str "hi\n"))).trace
            = [(okEnv (str "hi\n")).socketRet, 3] ∧
          Event.accept (okEnv (str "hi\n")).socketRet 3
            ∈ (main ["chat", "client", "127.0.0.1", "5000"] (okEnv (str "hi\n"))).trace)) :=
  ⟨by decide,
   (main_closes_connection_once ["chat", "client", "127.0.0.1", "5000"] (okEnv (str "hi\n")) 3
      (by decide)).1,
   (main_closes_connection_once ["chat", "client", "127.0.0.1", "5000"] (okEnv (str "hi\n")) 3
      (by decide)).2.2⟩

theorem run_server_failure (env : Env) (port : Int)
    (h : env.socketRet < 0 ∨ env.bindRet < 0 ∨ env.listenRet < 0 ∨ env.acceptRet < 0) :
    (run_server env port).2 < 0 ∧
      ∀ fd ∈ createdFds (run_server env port).1, fd ∈ closedFds (run_server env port).1 := by
  simp only [run_server]
  split_ifs with h1 h2 h3 h4
  · simp [createdFds, closedFds, h1]
  · simp [createdFds, closedFds, h1]
  · simp [createdFds, closedFds, h1]
  · simp [createdFds, closedFds, not_lt.mp h1, h4]
  · exfalso
    rcases h with h | h | h | h
    · exact h1 h
    · exact h2 h
    · exact h3 h
    · exact h4 h

theorem run_client_failure (env : Env) (ip : String) (port : Int)
    (h : env.socketRet < 0 ∨ env.inet_pton ip ≤ 0 ∨ env.connectRet < 0) :
    (run_client env ip port).2 < 0 ∧
      ∀ fd ∈ createdFds (run_client env ip port).1, fd ∈ closedFds (run_client env ip port).1 := by
  simp only [run_client]
  split_ifs with h1 h2 h3
  · simp [createdFds, closedFds, h1]
  · simp [createdFds, closedFds, h1]
  · simp [createdFds, closedFds, h1]
  · exfalso
    rcases h with h | h | h
    · exact h1 h
    · exact h2 h
    · exact h3 h

theorem main_chat_quiet (env : Env) (pre : List Event) (sock : Int) (h : sock < 0)
    (hpre : ∀ e ∈ pre, e.isRelay = false) :
    (main_chat env pre sock).status = some 1 ∧
      ∀ e ∈ (main_chat env pre sock).trace, e.isRelay = false := by
  rw [main_chat_failed env pre sock h]
  refine ⟨rfl, ?_⟩
  intro e he
  rcases List.mem_append.mp he with h1 | h1
  · exact hpre e h1
  · simp only [List.mem_singleton] at h1
    subst h1
    rfl

theorem signals_quiet (tr : List Event) (htr : ∀ e ∈ tr, e.isRelay = false) :
    ∀ e ∈ [Event.signal SIGINT, Event.signal SIGTERM] ++ tr, e.isRelay = false := by
  intro e he
  rcases List.mem_append.mp he with h1 | h1
  · simp only [List.mem_cons, List.mem_singleton, List.not_mem_nil, or_false] at h1
    rcases h1 with h1 | h1 <;> subst h1 <;> rfl
  · exact htr e h1

/-- C5: whenever a setup step fails (`socket`, `bind`, `listen` or `accept` in
server mode; `socket`, `inet_pton` or `connect` in client mode), `run_server`
or `run_client` returns a negative value, every socket it had created has been
closed, and `main` exits with status 1 without starting the receiving thread,
reading local input or sending anything. -/
theorem setup_failure_exits_1 (env : Env) (prog p ip : String) :
    ((env.socketRet < 0 ∨ env.bindRet < 0 ∨ env.listenRet < 0 ∨ env.acceptRet < 0) →
      (∀ port : Int, (run_server env port).2 < 0 ∧
        ∀ fd ∈ createdFds (run_server env port).1, fd ∈ closedFds (run_server env port).1) ∧
      (main [prog, "server", p] env).status = some 1 ∧
      ∀ e ∈ (main [prog, "server", p] env).trace, e.isRelay = false) ∧
    ((env.socketRet < 0 ∨ env.inet_pton ip ≤ 0 ∨ env.connectRet < 0) →
      (∀ port : Int, (run_client env ip port).2 < 0 ∧
        ∀ fd ∈ createdFds (run_client env ip port).1, fd ∈ closedFds (run_client env ip port).1) ∧
      (main [prog, "client", ip, p] env).status = some 1 ∧
      ∀ e ∈ (main [prog, "client", ip, p] env).trace, e.isRelay = false) := by
  constructor
  · intro h
    refine ⟨fun port => run_server_failure env port h, ?_⟩
    rw [main_server_eq]
    exact main_chat_quiet env _ _ (run_server_failure env (atoi p) h).1
      (signals_quiet _ (run_server_trace env (atoi p)).1)
  · intro h
    refine ⟨fun port => run_client_failure env ip port h, ?_⟩
    rw [main_client_eq]
    exact main_chat_quiet env _ _ (run_client_failure env ip (atoi p) h).1
      (signals_quiet _ (run_client_trace env ip (atoi p)).1)

/-- Witness for C5: a failing `bind` in server mode, and a refused `connect`
in client mode. -/
theorem setup_failure_exits_1_witness :
    ((bindFailEnv.socketRet < 0 ∨ bindFailEnv.bindRet < 0 ∨ bindFailEnv.listenRet < 0
        ∨ bindFailEnv.acceptRet < 0) ∧
      ((∀ port : Int, (run_server bindFailEnv port).2 < 0 ∧
        ∀ fd ∈ createdFds (run_server bindFailEnv port).1,
          fd ∈ closedFds (run_server bindFailEnv port).1) ∧
      (main ["chat", "server", "5000"] bindFailEnv).status = some 1 ∧
      ∀ e ∈ (main ["chat", "server", "5000"] bindFailEnv).trace, e.isRelay = false)) ∧
    ((refusedEnv.socketRet < 0 ∨ refusedEnv.inet_pton "127.0.0.1" ≤ 0
        ∨ refusedEnv.connectRet < 0) ∧
      ((∀ port : Int, (run_client refusedEnv "127.0.0.1" port).2 < 0 ∧
        ∀ fd ∈ createdFds (run_client refusedEnv "127.0.0.1" port).1,
          fd ∈ closedFds (run_client refusedEnv "127.0.0.1" port).1) ∧
      (main ["chat", "client", "127.0.0.1", "5000"] refusedEnv).status = some 1 ∧
      ∀ e ∈ (main ["chat", "client", "127.0.0.1", "5000"] refusedEnv).trace,
        e.isRelay = false)) :=
  ⟨⟨by decide,
    (setup_failure_exits_1 bindFailEnv "chat" "5000" "127.0.0.1").1 (by decide)⟩,
   ⟨by decide,
    (setup_failure_exits_1 refusedEnv "chat" "5000" "127.0.0.1").2 (by decide)⟩⟩

/-- C7: in every run of `run_server`, `accept` is called at most once; when
it succeeds, `run_server` returns the accepted peer's descriptor, and the last
call before the return is the `close` of the listening socket the peer was
accepted on. -/
theorem run_server_accepts_once (env : Env) (port : Int) :
    acceptCalls (run_server env port).1 ≤ 1 ∧
    ∀ (fd ret : Int), Event.accept fd ret ∈ (run_server env port).1 → 0 ≤ ret →
      (run_server env port).2 = ret ∧
      ∃ before, (run_server env port).1 = before ++ [Event.close fd] ∧
        Event.accept fd ret ∈ before ∧ Event.socket fd ∈ before := by
  simp only [run_server]
  split_ifs with h1 h2 h3 h4
  · simp [acceptCalls, Event.isAccept]
  · simp [acceptCalls, Event.isAccept]
  · simp [acceptCalls, Event.isAccept]
  · refine ⟨by simp [acceptCalls, Event.isAccept], ?_⟩
    intro fd ret hmem hret
    simp at hmem
    omega
  · refine ⟨by simp [acceptCalls, Event.isAccept], ?_⟩
    intro fd ret hmem hret
    simp at hmem
    obtain ⟨hfd, hr⟩ := hmem
    subst hfd hr
    refine ⟨rfl, ⟨[Event.socket env.socketRet, Event.setsockopt env.socketRet,
        Event.bind env.socketRet (htons port) env.bindRet,
        Event.listen env.socketRet 1 env.listenRet,
        Event.stdout (str ("Server listening on port " ++ toString port ++ "...\n")),
        Event.stdout (str "Waiting for client to connect...\n"),
        Event.accept env.socketRet env.acceptRet,
        Event.stdout (str ("Client connected from " ++ env.peerAddr ++ ":"
          ++ toString env.peerPort ++ "\n")),
        Event.stdout (str "Chat started! Type messages and press Enter.\n"),
        Event.stdout (str "Press Ctrl+C to exit.\n\n")], rfl, ?_, ?_⟩⟩ <;> simp

/-- Witness for C7: a run in which every call succeeds. -/
theorem run_server_accepts_once_witness :
    acceptCalls (run_server (okEnv []) 5000).1 ≤ 1 ∧
      (Event.accept 3 4 ∈ (run_server (okEnv []) 5000).1 ∧ (0 : Int) ≤ 4) ∧
      (run_server (okEnv []) 5000).2 = 4 ∧
      ∃ before, (run_server (okEnv []) 5000).1 = before ++ [Event.close 3] ∧
        Event.accept 3 4 ∈ before ∧ Event.socket 3 ∈ before :=
  ⟨(run_server_accepts_once (okEnv []) 5000).1, ⟨by decide, by decide⟩,
   (run_server_accepts_once (okEnv []) 5000).2 3 4 (by decide) (by decide)⟩

theorem main_chat_keeps (env : Env) (pre : List Event) (sock : Int) :
    ∀ e ∈ pre, e ∈ (main_chat env pre sock).trace := by
  intro e he
  simp only [main_chat]
  split_ifs <;> simp [he]

/-- C6, counterexample: the address `999.999.999.999` is not well formed, but
when `socket` fails first `run_client` returns -1 after reporting the socket
failure; the invalid-address failure is not reported. -/
theorem run_client_bad_address_unreported :
    dottedQuad "999.999.999.999" = false ∧
      run_client noSocketEnv "999.999.999.999" 5000
        = ([Event.socket (-1), Event.perror "Socket creation failed"], -1) ∧
      Event.stdout (str "Invalid server IP address\n")
        ∉ (main ["chat", "client", "999.999.999.999", "5000"] noSocketEnv).trace := by
  decide

/-- C6, amended: for every server address string that is not a well-formed
numeric dotted IPv4 address (and an `inet_pton` that rejects such strings),
`run_client` returns a negative value without ever calling `connect`, and
the program exits with status 1; when the socket could be created, the
failure reported is the invalid-address one. -/
theorem run_client_rejects_bad_address (env : Env) (prog ip p : String)
    (hpton : ∀ s : String, dottedQuad s = false → env.inet_pton s ≤ 0)
    (hbad : dottedQuad ip = false) :
    (∀ port : Int, (run_client env ip port).2 < 0 ∧
      (∀ e ∈ (run_client env ip port).1, e.isConnect = false) ∧
      (0 ≤ env.socketRet →
        Event.stdout (str "Invalid server IP address\n") ∈ (run_client env ip port).1)) ∧
    (main [prog, "client", ip, p] env).status = some 1 ∧
    ∀ e ∈ (main [prog, "client", ip, p] env).trace, e.isConnect = false := by
  have hrej := hpton ip hbad
  have hrc : ∀ port : Int, (run_client env ip port).2 < 0 ∧
      (∀ e ∈ (run_client env ip port).1, e.isConnect = false) ∧
      (0 ≤ env.socketRet →
        Event.stdout (str "Invalid server IP address\n") ∈ (run_client env ip port).1) := by
    intro port
    simp only [run_client]
    by_cases h1 : env.socketRet < 0
    · simp [h1, Event.isConnect, not_le.mpr h1]
    · simp [h1, hrej, Event.isConnect]
  refine ⟨hrc, ?_⟩
  rw [main_client_eq]
  have hfail := (hrc (atoi p)).1
  rw [main_chat_failed env _ _ hfail]
  refine ⟨rfl, ?_⟩
  intro e he
  rcases List.mem_append.mp he with h1 | h1
  · rcases List.mem_append.mp h1 with h2 | h2
    · simp only [List.mem_cons, List.mem_singleton, List.not_mem_nil, or_false] at h2
      rcases h2 with h2 | h2 <;> subst h2 <;> rfl
    · exact (hrc (atoi p)).2.1 e h2
  · simp only [List.mem_singleton] at h1
    subst h1
    rfl

/-- Witness for C6 (amended): the address `999.999.999.999`. -/
theorem run_client_rejects_bad_address_witness :
    dottedQuad "999.999.999.999" = false ∧
    (∀ port : Int, (run_client posixEnv "999.999.999.999" port).2 < 0 ∧
      (∀ e ∈ (run_client posixEnv "999.999.999.999" port).1, e.isConnect = false) ∧
      (0 ≤ posixEnv.socketRet →
        Event.stdout (str "Invalid server IP address\n")
          ∈ (run_client posixEnv "999.999.999.999" port).1)) ∧
    (main ["chat", "client", "999.999.999.999", "5000"] posixEnv).status = some 1 ∧
    ∀ e ∈ (main ["chat", "client", "999.999.999.999", "5000"] posixEnv).trace,
      e.isConnect = false :=
  ⟨by decide,
   run_client_rejects_bad_address posixEnv "chat" "999.999.999.999" "5000"
    (by
      intro s hs
      show posixPton s ≤ 0
      simp [posixPton, hs])
    (by decide)⟩

theorem takeWhile_isDigit_nil (l : List Char) (h : ∀ c ∈ l, c.isDigit = false) :
    l.takeWhile Char.isDigit = [] := by
  cases l with
  | nil => rfl
  | cons a l => simp [List.takeWhile_cons, h a (List.mem_cons_self a l)]

theorem parseSign_subset (cs : List Char) : ∀ c ∈ (parseSign cs).2, c ∈ cs := by
  intro c hc
  unfold parseSign at hc
  split at hc
  · exact List.mem_cons_of_mem _ hc
  · exact List.mem_cons_of_mem _ hc
  · exact hc

theorem atoi_no_digit (s : String) (h : ∀ c ∈ s.toList, c.isDigit = false) : atoi s = 0 := by
  have hsub : ∀ c ∈ (parseSign (s.toList.dropWhile isspace)).2, c.isDigit = false :=
    fun c hc => h c ((List.dropWhile_sublist _).subset (parseSign_subset _ c hc))
  simp only [atoi, takeWhile_isDigit_nil _ hsub, digitsValue, List.foldl_nil]
  cases (parseSign (s.toList.dropWhile isspace)).1 <;> decide

/-- C8, counterexample: the port argument `abc` is not numeric, yet in server
mode `bind` is called, and in client mode `connect` is called, with the port
0 that `atoi` derives from it. -/
theorem main_uses_non_numeric_port :
    isNumeric "abc" = false ∧
      Event.bind 3 0 0 ∈ (main ["chat", "server", "abc"] (okEnv [])).trace ∧
      Event.connect 3 "127.0.0.1" 0 0
        ∈ (main ["chat", "client", "127.0.0.1", "abc"] (okEnv [])).trace := by
  decide

/-- C8, amended: the port argument is not validated.  For every port
argument, numeric or not, the endpoint is not rejected: in server mode `bind`
is called as soon as the socket exists, and in client mode `connect` is called
as soon as the socket exists and the address is accepted, with the port
`htons(atoi(argument))`; for an argument that contains no digit that port
is 0. -/
theorem main_port_not_validated (env : Env) (prog p ip : String) :
    (0 ≤ env.socketRet →
      Event.bind env.socketRet (htons (atoi p)) env.bindRet
        ∈ (main [prog, "server", p] env).trace) ∧
    (0 ≤ env.socketRet → 0 < env.inet_pton ip →
      Event.connect env.socketRet ip (htons (atoi p)) env.connectRet
        ∈ (main [prog, "client", ip, p] env).trace) ∧
    ((∀ c ∈ p.toList, c.isDigit = false) → atoi p = 0) ∧
    ((∀ c ∈ p.toList, c.isDigit = false) → 0 ≤ env.socketRet →
      Event.bind env.socketRet 0 env.bindRet ∈ (main [prog, "server", p] env).trace) ∧
    ((∀ c ∈ p.toList, c.isDigit = false) → 0 ≤ env.socketRet → 0 < env.inet_pton ip →
      Event.connect env.socketRet ip 0 env.connectRet
        ∈ (main [prog, "client", ip, p] env).trace) := by
  have hbind : 0 ≤ env.socketRet →
      Event.bind env.socketRet (htons (atoi p)) env.bindRet
        ∈ (main [prog, "server", p] env).trace := by
    intro h0
    rw [main_server_eq]
    apply main_chat_keeps
    apply List.mem_append_right
    simp only [run_server]
    split_ifs with h1 <;> simp
    omega
  have hconn : 0 ≤ env.socketRet → 0 < env.inet_pton ip →
      Event.connect env.socketRet ip (htons (atoi p)) env.connectRet
        ∈ (main [prog, "client", ip, p] env).trace := by
    intro h0 hip
    rw [main_client_eq]
    apply main_chat_keeps
    apply List.mem_append_right
    simp only [run_client]
    split_ifs with h1 h2 <;> simp
    · omega
    · omega
  have hzero : (∀ c ∈ p.toList, c.isDigit = false) → htons (atoi p) = 0 := by
    intro hp
    rw [atoi_no_digit p hp]
    rfl
  refine ⟨hbind, hconn, atoi_no_digit p, ?_, ?_⟩
  · intro hp h0
    have h := hbind h0
    rwa [hzero hp] at h
  · intro hp h0 hip
    have h := hconn h0 hip
    rwa [hzero hp] at h

/-- Witness for C8 (amended): the port argument `abc`. -/
theorem main_port_not_validated_witness :
    ((0 : Int) ≤ (okEnv []).socketRet ∧
      Event.bind (okEnv []).socketRet (htons (atoi "abc")) (okEnv []).bindRet
        ∈ (main ["chat", "server", "abc"] (okEnv [])).trace) ∧
    (0 < (okEnv []).inet_pton "127.0.0.1" ∧
      Event.connect (okEnv []).socketRet "127.0.0.1" (htons (atoi "abc")) (okEnv []).connectRet
        ∈ (main ["chat", "client", "127.0.0.1", "abc"] (okEnv [])).trace) ∧
    ((∀ c ∈ "abc".toList, c.isDigit = false) ∧ atoi "abc" = 0) ∧
    Event.bind (okEnv []).socketRet 0 (okEnv []).bindRet
      ∈ (main ["chat", "server", "abc"] (okEnv [])).trace ∧
    Event.connect (okEnv []).socketRet "127.0.0.1" 0 (okEnv []).connectRet
      ∈ (main ["chat", "client", "127.0.0.1", "abc"] (okEnv [])).trace :=
  ⟨⟨by decide, (main_port_not_validated (okEnv []) "chat" "abc" "127.0.0.1").1 (by decide)⟩,
   ⟨by decide,
    (main_port_not_validated (okEnv []) "chat" "abc" "127.0.0.1").2.1 (by decide) (by decide)⟩,
   ⟨by decide, (main_port_not_validated (okEnv []) "chat" "abc" "127.0.0.1").2.2.1 (by decide)⟩,
   (main_port_not_validated (okEnv []) "chat" "abc" "127.0.0.1").2.2.2.1 (by decide) (by decide),
   (main_port_not_validated (okEnv []) "chat" "abc" "127.0.0.1").2.2.2.2 (by decide) (by decide)
    (by decide)⟩

end Kothapp
